import Mathlib

/-!
# Session separation, display assembly, rangebreaks and traces of the enhanced chart

A shallow embedding of `static/js/enhanced_chart_implementation.js`.

Conventions of the embedding:

* a JavaScript number that is a timestamp is an `Int` (epoch milliseconds);
* a price or volume cell is a `JsVal`: a finite number (an exact rational), `NaN`,
  an infinity, `undefined` (an absent cell) or `null`;
* a `Date` is `Option Int`: its time value, `none` being `Invalid Date`;
* a number that may be `NaN` is `Option Int`, `none` being `NaN`;
* `/` and `%` on `Int` with a positive divisor are floor division and the
  non-negative remainder, which is what `Date.prototype.getUTCHours` and
  `getUTCMinutes` use; the JavaScript `%` operator is `Int.tmod`.
-/

namespace EnhancedChart

/-! ## JavaScript values -/

/-- A cell of a price or volume array. -/
inductive JsVal where
  | num (x : ℚ)
  | nan
  | posInf
  | negInf
  | undefined
  | null
  deriving DecidableEq, Repr

/-- The test `Number.isFinite(x)`. -/
def JsVal.isFinite : JsVal → Bool
  | .num _ => true
  | _ => false

/-- The expression `x || 0`: the falsy values (`0`, `NaN`, `undefined`, `null`) give `0`. -/
def JsVal.orZero : JsVal → JsVal
  | .num x => .num x
  | .nan => .num 0
  | .undefined => .num 0
  | .null => .num 0
  | .posInf => .posInf
  | .negInf => .negInf

/-- The test `x === 0`. -/
def JsVal.isZero (v : JsVal) : Bool := decide (v = .num 0)

/-- Array read `xs[i]`: `undefined` past the end. -/
def idx (xs : List JsVal) (i : Nat) : JsVal := xs.getD i .undefined

/-- Optional-chaining read `xs?.[i]`. -/
def idxOpt (xs : Option (List JsVal)) (i : Nat) : JsVal :=
  match xs with
  | some ys => idx ys i
  | none => .undefined

/-- The constructor `new Date(timestamp)` on an integer: the time value is kept when
it is within 8.64e15 milliseconds of the epoch, and the date is invalid otherwise. -/
def newDate (timestamp : Int) : Option Int :=
  if timestamp.natAbs ≤ 8640000000000000 then some timestamp else none

/-- The method `date.getUTCHours()`; `none` is `NaN`. -/
def getUTCHours (date : Option Int) : Option Int :=
  date.map fun tv => tv / 3600000 % 24

/-- The method `date.getUTCMinutes()`; `none` is `NaN`. -/
def getUTCMinutes (date : Option Int) : Option Int :=
  date.map fun tv => tv / 60000 % 60

/-! ## Sessions -/

/-- The three session labels, `'premarket'`, `'regular'` and `'afterhours'`. -/
inductive SessionLabel where
  | premarket
  | regular
  | afterhours
  deriving DecidableEq, Repr

/-- The value `etTotalMinutes` of `separateSessionData` for one timestamp
(lines 101 to 109): `etHours = (hours - 5 + 24) % 24`, then `etHours * 60 + minutes`. -/
def etTotalMinutes (timestamp : Int) : Option Int :=
  let date := newDate timestamp
  match getUTCHours date, getUTCMinutes date with
  | some hours, some minutes =>
    let etHours := (hours - 5 + 24).tmod 24
    some (etHours * 60 + minutes)
  | _, _ => none

/-- Line 112: `etTotalMinutes >= 240 && etTotalMinutes < 570`. -/
def isPremarket (etTotalMinutes : Option Int) : Bool :=
  match etTotalMinutes with
  | some m => decide (240 ≤ m) && decide (m < 570)
  | none => false

/-- Line 113: `etTotalMinutes >= 570 && etTotalMinutes < 960`. -/
def isRegular (etTotalMinutes : Option Int) : Bool :=
  match etTotalMinutes with
  | some m => decide (570 ≤ m) && decide (m < 960)
  | none => false

/-- Line 114: `etTotalMinutes >= 960 && etTotalMinutes < 1200`. -/
def isAfterhours (etTotalMinutes : Option Int) : Bool :=
  match etTotalMinutes with
  | some m => decide (960 ≤ m) && decide (m < 1200)
  | none => false

/-- Minutes since midnight at the fixed UTC-5 offset, written as the specification
writes it: `((floor(ts / 60000) mod 1440) - 300) mod 1440`. -/
def specMinuteOfDay (ts : Int) : Int := (ts / 60000 % 1440 - 300) % 1440

/-! ## Rangebreaks -/

/-- The `bounds` of a rangebreak: two day names or two hours of the day. -/
inductive Bounds where
  | days (a b : String)
  | hours (a b : ℚ)
  deriving DecidableEq, Repr

/-- One entry of `xaxis.rangebreaks`. -/
structure RangeBreak where
  pattern : String
  bounds : Bounds
  name : String
  deriving DecidableEq, Repr

/-- The argument object of `buildEnhancedRangebreaks`; an absent property is `none`. -/
structure RangebreakOptions where
  showPremarket : Option Bool := none
  showAfterhours : Option Bool := none
  hideClosed : Option Bool := none
  timeframe : Option String := none
  deriving DecidableEq, Repr

/-- The function `buildEnhancedRangebreaks(options)` (lines 31 to 90). -/
def buildEnhancedRangebreaks (options : RangebreakOptions) : List RangeBreak :=
  let showPremarket := options.showPremarket.getD true
  let showAfterhours := options.showAfterhours.getD true
  let hideClosed := options.hideClosed.getD true
  let timeframe := options.timeframe.getD "1d"
  if !hideClosed then []
  else if timeframe = "1d" then
    [{ pattern := "day of week", bounds := .days "sat" "mon", name := "weekend" }]
  else
    [{ pattern := "day of week", bounds := .days "sat" "mon", name := "weekend" }] ++
    (if !showPremarket && !showAfterhours then
      [{ pattern := "hour", bounds := .hours 16 24, name := "overnight" },
       { pattern := "hour", bounds := .hours 0 (19 / 2), name := "pre-open" }]
    else if !showPremarket && showAfterhours then
      [{ pattern := "hour", bounds := .hours 20 24, name := "late-night" },
       { pattern := "hour", bounds := .hours 0 (19 / 2), name := "pre-open" }]
    else if showPremarket && !showAfterhours then
      [{ pattern := "hour", bounds := .hours 16 24, name := "after-close" },
       { pattern := "hour", bounds := .hours 0 4, name := "overnight" }]
    else
      [{ pattern := "hour", bounds := .hours 20 24, name := "late-night" },
       { pattern := "hour", bounds := .hours 0 4, name := "overnight" }])

/-- The weekend break of the specification: day-of-week, bounds `[sat, mon]`. -/
def specWeekend : RangeBreak :=
  { pattern := "day of week", bounds := .days "sat" "mon", name := "weekend" }

/-- The decision table of the specification (section 4.4), row by row. -/
def specHourBreaks : Bool → Bool → List RangeBreak
  | false, false => [⟨"hour", .hours 16 24, "overnight"⟩, ⟨"hour", .hours 0 (19 / 2), "pre-open"⟩]
  | false, true => [⟨"hour", .hours 20 24, "late-night"⟩, ⟨"hour", .hours 0 (19 / 2), "pre-open"⟩]
  | true, false => [⟨"hour", .hours 16 24, "after-close"⟩, ⟨"hour", .hours 0 4, "overnight"⟩]
  | true, true => [⟨"hour", .hours 20 24, "late-night"⟩, ⟨"hour", .hours 0 4, "overnight"⟩]

/-- The rules of the specification for the rangebreak builder (section 4.4). -/
def specRangebreaks (hideClosed : Bool) (timeframe : String) (showPremarket showAfterhours : Bool) :
    List RangeBreak :=
  match hideClosed with
  | false => []
  | true =>
    if timeframe = "1d" then [specWeekend]
    else specWeekend :: specHourBreaks showPremarket showAfterhours

/-- Whether minute `m` of the day lies inside an hour-pattern break with bounds `[a, b)`
in hours: `60 a ≤ m < 60 b`. -/
def hourBreakCovers (b : RangeBreak) (m : Nat) : Bool :=
  match b.bounds with
  | .hours lo hi => decide (b.pattern = "hour") && decide (60 * lo ≤ (m : ℚ)) && decide ((m : ℚ) < 60 * hi)
  | .days _ _ => false

/-- Whether minute `m` of the day lies inside one of the hour-pattern breaks of a list. -/
def hiddenByHourBreaks (breaks : List RangeBreak) (m : Nat) : Bool :=
  breaks.any fun b => hourBreakCovers b m

/-! ## Bars and series -/

/-- The raw series of the candles endpoint: parallel arrays `t, o, h, l, c`, and an
optional `v`; `t` itself may be missing. -/
structure RawSeries where
  t : Option (List Int)
  o : List JsVal
  h : List JsVal
  l : List JsVal
  c : List JsVal
  v : Option (List JsVal)
  deriving DecidableEq, Repr

/-- The object `bar` of `separateSessionData` (lines 116 to 123). -/
structure Bar where
  t : Int
  o : JsVal
  h : JsVal
  l : JsVal
  c : JsVal
  v : JsVal
  deriving DecidableEq, Repr

/-- A per-session bucket `{ t: [], o: [], h: [], l: [], c: [], v: [] }`. -/
structure Series where
  t : List Int
  o : List JsVal
  h : List JsVal
  l : List JsVal
  c : List JsVal
  v : List JsVal
  deriving DecidableEq, Repr

/-- The empty bucket of lines 96 to 98. -/
def Series.empty : Series := { t := [], o := [], h := [], l := [], c := [], v := [] }

/-- The statement `Object.keys(bar).forEach(key => bucket[key].push(bar[key]))`. -/
def Series.push (s : Series) (bar : Bar) : Series :=
  { t := s.t ++ [bar.t], o := s.o ++ [bar.o], h := s.h ++ [bar.h], l := s.l ++ [bar.l],
    c := s.c ++ [bar.c], v := s.v ++ [bar.v] }

/-- The series whose rows are the given bars, in order. -/
def Series.ofBars (bars : List Bar) : Series :=
  { t := bars.map (·.t), o := bars.map (·.o), h := bars.map (·.h), l := bars.map (·.l),
    c := bars.map (·.c), v := bars.map (·.v) }

/-- The result `{ regular, premarket, afterhours }` of `separateSessionData`; a bucket
is `none` when it is `null`. -/
structure Sessions where
  regular : Option Series
  premarket : Option Series
  afterhours : Option Series
  deriving DecidableEq, Repr

/-- The three buckets while the loop of `separateSessionData` runs. -/
structure Buckets where
  regular : Series
  premarket : Series
  afterhours : Series
  deriving DecidableEq, Repr

/-- The bar read at index `i` (lines 116 to 123): the volume is `data.v?.[i] || 0`. -/
def barAt (data : RawSeries) (i : Nat) (timestamp : Int) : Bar :=
  { t := timestamp, o := idx data.o i, h := idx data.h i, l := idx data.l i,
    c := idx data.c i, v := (idxOpt data.v i).orZero }

/-- One iteration of the loop of `separateSessionData` (lines 101 to 136). -/
def separateBody (data : RawSeries) (acc : Buckets) (i : Nat) (timestamp : Int) : Buckets :=
  let m := etTotalMinutes timestamp
  let bar := barAt data i timestamp
  if bar.v.isZero && !isRegular m then acc
  else if !bar.o.isFinite || !bar.h.isFinite || !bar.l.isFinite || !bar.c.isFinite then acc
  else if isPremarket m then { acc with premarket := acc.premarket.push bar }
  else if isRegular m then { acc with regular := acc.regular.push bar }
  else if isAfterhours m then { acc with afterhours := acc.afterhours.push bar }
  else acc

/-- The loop `for (let i = ...; i < data.t.length; i++)`, from index `i` on, `rest`
being `data.t` from that index. -/
def separateLoop (data : RawSeries) : Nat → List Int → Buckets → Buckets
  | _, [], acc => acc
  | i, timestamp :: rest, acc => separateLoop data (i + 1) rest (separateBody data acc i timestamp)

/-- The function `separateSessionData(data)` (lines 93 to 140). -/
def separateSessionData (data : Option RawSeries) : Sessions :=
  match data with
  | none => { regular := none, premarket := none, afterhours := none }
  | some d =>
    match d.t with
    | none => { regular := none, premarket := none, afterhours := none }
    | some ts =>
      let out := separateLoop d 0 ts
        { regular := Series.empty, premarket := Series.empty, afterhours := Series.empty }
      { regular := some out.regular, premarket := some out.premarket,
        afterhours := some out.afterhours }

/-- The input bars from index `i` on, the volume taken as 0 when absent. -/
def barsFrom (data : RawSeries) : Nat → List Int → List Bar
  | _, [] => []
  | i, timestamp :: rest => barAt data i timestamp :: barsFrom data (i + 1) rest

/-- The input bars of a raw series with timestamp array `ts`. -/
def inputBars (data : RawSeries) (ts : List Int) : List Bar := barsFrom data 0 ts

/-- The volume of an input bar as the specification takes it: the cell of the volume
array when it is a non-zero number, and 0 when the array or the cell is absent, or the
cell is `null`, `NaN` or 0. -/
def specVolume (cell : Option JsVal) : JsVal :=
  match cell with
  | some (.num x) => .num x
  | some .posInf => .posInf
  | some .negInf => .negInf
  | _ => .num 0

/-- Bar `i` of a raw series as the specification describes it: the timestamp `t[i]`, the
cells `o[i]`, `h[i]`, `l[i]`, `c[i]` (`undefined` past the end of an array) and the
volume `v[i]`, taken as 0 when absent. -/
def specBarAt (ts : List Int) (o h l c : List JsVal) (v : Option (List JsVal)) (i : Nat) : Bar :=
  { t := ts.getD i 0, o := o.getD i .undefined, h := h.getD i .undefined,
    l := l.getD i .undefined, c := c.getD i .undefined,
    v := specVolume (v.bind fun vs => vs.get? i) }

/-- The input bars of a raw series as the specification describes them, one for each
index of the timestamp array, in order. -/
def specInputBars (ts : List Int) (o h l c : List JsVal) (v : Option (List JsVal)) : List Bar :=
  (List.range ts.length).map (specBarAt ts o h l c v)

/-- Whether the classification of a timestamp is the session `S`. -/
def hasLabel (S : SessionLabel) (timestamp : Int) : Bool :=
  match S with
  | .premarket => isPremarket (etTotalMinutes timestamp)
  | .regular => isRegular (etTotalMinutes timestamp)
  | .afterhours => isAfterhours (etTotalMinutes timestamp)

/-- The acceptance rule of the specification (section 4.2) for session `S`: the bar is
classified `S`, its open, high, low and close are finite, and its volume is non-zero
or `S` is the regular session. -/
def accepted (S : SessionLabel) (bar : Bar) : Bool :=
  hasLabel S bar.t && (bar.o.isFinite && bar.h.isFinite && bar.l.isFinite && bar.c.isFinite) &&
    (!bar.v.isZero || decide (S = .regular))

/-- Componentwise concatenation of two series. -/
def Series.append (s s' : Series) : Series :=
  { t := s.t ++ s'.t, o := s.o ++ s'.o, h := s.h ++ s'.h, l := s.l ++ s'.l,
    c := s.c ++ s'.c, v := s.v ++ s'.v }

/-! ## Chart state -/

/-- The parsed body of the candles endpoint: an optional `error` field and the series. -/
structure Payload where
  error : Option String
  series : RawSeries
  deriving DecidableEq, Repr

/-- The object `chartState.data`; `none` is `null`. -/
structure ChartData where
  full : Option Payload
  regular : Option Series
  premarket : Option Series
  afterhours : Option Series
  deriving DecidableEq, Repr

/-- The object `chartState.display`. -/
structure DisplayPrefs where
  showPremarket : Bool
  showAfterhours : Bool
  hideClosed : Bool
  highlightExtended : Bool
  deriving DecidableEq, Repr

/-- An entry of `layout.shapes`: a line or a circle with its corners, its line colour
and width, and the tag `_generated_by` when it has one. -/
structure Shape where
  type : String
  x0 : Option Int
  x1 : Option Int
  y0 : ℚ
  y1 : ℚ
  color : String
  width : ℚ
  _generated_by : Option String
  deriving DecidableEq, Repr

/-- An entry of `layout.annotations`. The text of an automatic label is
`typeLabel`, then `rank`, then the price `y` with two decimals; it is kept as these
three parts. -/
structure Annotation where
  y : ℚ
  typeLabel : String
  rank : Nat
  color : String
  _generated_by : Option String
  deriving DecidableEq, Repr

/-- The layout object handed to the plotting library: the title, the rangebreaks of the
x axis, `showlegend`, and the shapes and annotations (`none` when the property is
missing); the other fields of the source are constants. -/
structure Layout where
  title : String
  rangebreaks : List RangeBreak
  showlegend : Bool
  shapes : Option (List Shape) := none
  annotations : Option (List Annotation) := none
  deriving DecidableEq, Repr

/-- The global `chartState` (lines 11 to 28). -/
structure ChartState where
  symbol : Option String
  timeframe : Option String
  data : ChartData
  display : DisplayPrefs
  layout : Option Layout
  el : Option String
  deriving DecidableEq, Repr

/-! ## Display data -/

/-- An element of `allData` in `buildDisplayData`: a bar with its session marker. -/
structure Entry where
  t : Int
  o : JsVal
  h : JsVal
  l : JsVal
  c : JsVal
  v : JsVal
  session : SessionLabel
  deriving DecidableEq, Repr

/-- The display data handed to `createEnhancedTraces`: parallel arrays, `t` possibly
missing, and an optional `session` array. -/
structure DisplayData where
  t : Option (List Int)
  o : List JsVal
  h : List JsVal
  l : List JsVal
  c : List JsVal
  v : List JsVal
  session : Option (List SessionLabel)
  deriving DecidableEq, Repr

/-- The callback of `bucket.t.forEach((t, i) => allData.push({ t, o: bucket.o[i], ... }))`
run from index `i` on, `rest` being `bucket.t` from that index. -/
def entriesFrom (bucket : Series) (session : SessionLabel) : Nat → List Int → List Entry
  | _, [] => []
  | i, t :: rest =>
    { t := t, o := idx bucket.o i, h := idx bucket.h i, l := idx bucket.l i,
      c := idx bucket.c i, v := idx bucket.v i, session := session } ::
      entriesFrom bucket session (i + 1) rest

/-- The entries pushed for one bucket; a `null` bucket pushes nothing. -/
def bucketEntries (bucket : Option Series) (session : SessionLabel) : List Entry :=
  match bucket with
  | some s => entriesFrom s session 0 s.t
  | none => []

/-- The array `allData` before it is sorted (lines 164 to 194). -/
def allData (st : ChartState) : List Entry :=
  (if st.display.showPremarket then bucketEntries st.data.premarket .premarket else []) ++
    bucketEntries st.data.regular .regular ++
    (if st.display.showAfterhours then bucketEntries st.data.afterhours .afterhours else [])

/-- The order of the comparator `(a, b) => a.t - b.t`: `a` may stay before `b`. -/
def Entry.le (a b : Entry) : Prop := a.t ≤ b.t

instance Entry.decidableLe : DecidableRel Entry.le := fun a b => Int.decLe a.t b.t

instance Entry.isTotalLe : IsTotal Entry Entry.le := ⟨fun a b => Int.le_total a.t b.t⟩

instance Entry.isTransLe : IsTrans Entry Entry.le := ⟨fun _ _ _ hab hbc => Int.le_trans hab hbc⟩

/-- The call `allData.sort((a, b) => a.t - b.t)` (line 197). `Array.prototype.sort` is a
stable sort; the stable sorted arrangement of a list is unique, and is computed here by
insertion. -/
def sortByTimestamp (entries : List Entry) : List Entry := entries.insertionSort Entry.le

/-- The display data whose rows are the given entries (lines 200 to 204). -/
def DisplayData.ofEntries (entries : List Entry) : DisplayData :=
  { t := some (entries.map (·.t)), o := entries.map (·.o), h := entries.map (·.h),
    l := entries.map (·.l), c := entries.map (·.c), v := entries.map (·.v),
    session := some (entries.map (·.session)) }

/-- The function `buildDisplayData(chartState)` (lines 143 to 207). -/
def buildDisplayData (st : ChartState) : DisplayData :=
  DisplayData.ofEntries (sortByTimestamp (allData st))

/-- The rows read off seven parallel arrays, index by index. -/
def zipRows : List Int → List JsVal → List JsVal → List JsVal → List JsVal → List JsVal →
    List SessionLabel → List Entry
  | t :: ts, o :: os, h :: hs, l :: ls, c :: cs, v :: vs, s :: ss =>
    { t := t, o := o, h := h, l := l, c := c, v := v, session := s } ::
      zipRows ts os hs ls cs vs ss
  | _, _, _, _, _, _, _ => []

/-- The sequence of `(t, o, h, l, c, v, session)` entries of a display data. -/
def DisplayData.rows (d : DisplayData) : List Entry :=
  match d.t, d.session with
  | some ts, some ss => zipRows ts d.o d.h d.l d.c d.v ss
  | _, _ => []

/-- The elements of an array at the positions where the parallel array `keep` is true. -/
def keepWhere {α : Type} (keep : List Bool) (xs : List α) : List α :=
  ((xs.zip keep).filter (·.2)).map (·.1)

/-- A display data from which every position whose session tag is `S` is deleted, in
each of the seven arrays. -/
def DisplayData.deleteSession (d : DisplayData) (S : SessionLabel) : DisplayData :=
  match d.session with
  | none => d
  | some ss =>
    { t := d.t.map (keepWhere (ss.map fun s => decide (s ≠ S))),
      o := keepWhere (ss.map fun s => decide (s ≠ S)) d.o,
      h := keepWhere (ss.map fun s => decide (s ≠ S)) d.h,
      l := keepWhere (ss.map fun s => decide (s ≠ S)) d.l,
      c := keepWhere (ss.map fun s => decide (s ≠ S)) d.c,
      v := keepWhere (ss.map fun s => decide (s ≠ S)) d.v,
      session := some (keepWhere (ss.map fun s => decide (s ≠ S)) ss) }

/-- The chart state with `display.showPremarket` set. -/
def ChartState.withShowPremarket (st : ChartState) (b : Bool) : ChartState :=
  { st with display := { st.display with showPremarket := b } }

/-- The number of bars of a bucket; a `null` bucket has none. -/
def bucketLength (bucket : Option Series) : Nat :=
  match bucket with
  | some s => s.t.length
  | none => 0

/-! ## Traces -/

/-- A candlestick trace handed to the plotting library. A `Date` of `x` is its time
value, `none` being an invalid date; a trace of the single-trace path has no opacity. -/
structure Trace where
  type : String
  x : List (Option Int)
  «open» : List JsVal
  high : List JsVal
  low : List JsVal
  close : List JsVal
  name : String
  increasing : String
  decreasing : String
  opacity : Option ℚ
  showlegend : Bool
  deriving DecidableEq, Repr

/-- The colours, name and opacity of one entry of the object `sessions`. -/
structure SessionConfig where
  increasing : String
  decreasing : String
  name : String
  opacity : ℚ
  deriving DecidableEq, Repr

/-- The object `sessions` of `createEnhancedTraces` (lines 219 to 238), without the
index lists. -/
def sessions : SessionLabel → SessionConfig
  | .premarket =>
    { increasing := "#90EE90", decreasing := "#FFB6C1", name := "Pre-Market", opacity := 7 / 10 }
  | .regular =>
    { increasing := "#26a69a", decreasing := "#ef5350", name := "Regular Hours", opacity := 1 }
  | .afterhours =>
    { increasing := "#87CEEB", decreasing := "#DDA0DD", name := "After-Hours", opacity := 7 / 10 }

/-- The list `sessions[S].indices` after `data.session.forEach((session, i) => ...)`
(lines 241 to 245), run from index `i` on. -/
def indicesFrom (S : SessionLabel) : Nat → List SessionLabel → List Nat
  | _, [] => []
  | i, session :: rest =>
    if session = S then i :: indicesFrom S (i + 1) rest else indicesFrom S (i + 1) rest

/-- The expression `new Date(data.t[i])`; a read past the end gives an invalid date. -/
def dateAt (ts : List Int) (i : Nat) : Option Int :=
  match ts.get? i with
  | some t => newDate t
  | none => none

/-- The callback of `Object.entries(sessions).forEach` for one session (lines 248 to
269): a trace when the session has at least one index, nothing otherwise. -/
def sessionTraces (data : DisplayData) (ts : List Int) (ss : List SessionLabel)
    (S : SessionLabel) : List Trace :=
  if (indicesFrom S 0 ss).length > 0 then
    [{ type := "candlestick",
       x := (indicesFrom S 0 ss).map fun i => dateAt ts i,
       «open» := (indicesFrom S 0 ss).map fun i => idx data.o i,
       high := (indicesFrom S 0 ss).map fun i => idx data.h i,
       low := (indicesFrom S 0 ss).map fun i => idx data.l i,
       close := (indicesFrom S 0 ss).map fun i => idx data.c i,
       name := (sessions S).name,
       increasing := (sessions S).increasing,
       decreasing := (sessions S).decreasing,
       opacity := some (sessions S).opacity,
       showlegend := true }]
  else []

/-- The expression `chartState.symbol || 'Price'`. -/
def symbolOrPrice (symbol : Option String) : String :=
  match symbol with
  | some s => if s = "" then "Price" else s
  | none => "Price"

/-- The function `createEnhancedTraces(data, displayOptions)` (lines 210 to 288);
`symbol` is the global `chartState.symbol` that the single-trace path reads. -/
def createEnhancedTraces (symbol : Option String) (data : DisplayData)
    (displayOptions : DisplayPrefs) : List Trace :=
  match data.t with
  | none => []
  | some ts =>
    if ts.length = 0 then []
    else
      match displayOptions.highlightExtended, data.session with
      | true, some ss =>
        sessionTraces data ts ss .premarket ++ sessionTraces data ts ss .regular ++
          sessionTraces data ts ss .afterhours
      | _, _ =>
        [{ type := "candlestick",
           x := ts.map fun t => newDate t,
           «open» := data.o,
           high := data.h,
           low := data.l,
           close := data.c,
           name := symbolOrPrice symbol,
           increasing := "#26a69a",
           decreasing := "#ef5350",
           opacity := none,
           showlegend := false }]

/-- The trace of the specification for session `S` over the rows of a display series:
exactly the bars tagged `S`, in their order, with the colours and name of the session. -/
def specSessionTrace (rows : List Entry) (S : SessionLabel) : Trace :=
  { type := "candlestick",
    x := (rows.filter fun e => decide (e.session = S)).map fun e => newDate e.t,
    «open» := (rows.filter fun e => decide (e.session = S)).map (·.o),
    high := (rows.filter fun e => decide (e.session = S)).map (·.h),
    low := (rows.filter fun e => decide (e.session = S)).map (·.l),
    close := (rows.filter fun e => decide (e.session = S)).map (·.c),
    name := (sessions S).name,
    increasing := (sessions S).increasing,
    decreasing := (sessions S).decreasing,
    opacity := some (sessions S).opacity,
    showlegend := true }

/-! ## Controller -/

/-- What a handler reads from the page: the chart container found (`'chart'` or
`'tradeChart'`, `none` when neither exists), the value of the symbol input and of the
timeframe select (`none` when the control is absent), and the `checked` state of the four
checkboxes (`none` when the control is absent). -/
structure Page where
  chartEl : Option String
  symbolInput : Option String
  timeframeInput : Option String
  showPremarket : Option Bool
  showAfterhours : Option Bool
  hideClosed : Option Bool
  highlightExtended : Option Bool
  deriving DecidableEq, Repr

/-- The outcome of `fetch(url)` followed by `res.json()`: the fetch is rejected; or the
body cannot be parsed; or the body is parsed, with `res.ok` and the parsed value, `none`
being the JSON value `null`. -/
inductive FetchOutcome where
  | rejected
  | unparsable
  | body (ok : Bool) (data : Option Payload)
  deriving DecidableEq, Repr

/-- What is handed to the plotting library by `Plotly.newPlot` or `Plotly.react`, with
the display data the traces were built from. -/
structure Render where
  displayData : DisplayData
  traces : List Trace
  layout : Layout
  deriving DecidableEq, Repr

/-- How a run of `loadEnhancedChart` ends: no chart container; the `catch` block; or a
chart drawn. -/
inductive Outcome where
  | noContainer
  | failed
  | rendered (r : Render)
  deriving DecidableEq, Repr

/-- The display data of a drawn chart, if one was drawn. -/
def Outcome.displayData : Outcome → Option DisplayData
  | .rendered r => some r.displayData
  | _ => none

/-- The traces of a drawn chart, if one was drawn. -/
def Outcome.traces : Outcome → Option (List Trace)
  | .rendered r => some r.traces
  | _ => none

/-- The state `chartState` when the script is loaded (lines 11 to 28). -/
def initialChartState : ChartState :=
  { symbol := none, timeframe := none,
    data := { full := none, regular := none, premarket := none, afterhours := none },
    display := { showPremarket := true, showAfterhours := true, hideClosed := true,
                 highlightExtended := true },
    layout := none, el := none }

/-- The expression `value || fallback` on an optional string. -/
def strOr (value : Option String) (fallback : String) : String :=
  match value with
  | some s => if s = "" then fallback else s
  | none => fallback

/-- Whether `data.error` is truthy. -/
def Payload.hasError (data : Payload) : Bool :=
  match data.error with
  | some e => decide (e ≠ "")
  | none => false

/-- The display data of the daily branch of `loadEnhancedChart` (line 352):
`{ t: data.t, o: data.o, h: data.h, l: data.l, c: data.c, v: data.v || [] }`. -/
def dailyDisplayData (data : Payload) : DisplayData :=
  { t := data.series.t, o := data.series.o, h := data.series.h, l := data.series.l,
    c := data.series.c, v := data.series.v.getD [], session := none }

/-- The layout built by `loadEnhancedChart` (lines 366 to 392); `toUpperCase` is the
library method `String.prototype.toUpperCase`. -/
def loadLayout (toUpperCase : String → String) (symbol timeframe : String)
    (display : DisplayPrefs) : Layout :=
  { title := symbol ++ " - " ++ toUpperCase timeframe,
    rangebreaks := buildEnhancedRangebreaks
      { showPremarket := some display.showPremarket,
        showAfterhours := some display.showAfterhours,
        hideClosed := some display.hideClosed, timeframe := some timeframe },
    showlegend := display.highlightExtended }

/-- The part of `loadEnhancedChart` after the body is accepted (lines 346 to 414):
`st` already holds the new symbol, timeframe and display preferences. -/
def loadAccepted (toUpperCase : String → String) (st : ChartState)
    (chartEl symbol timeframe : String) (data : Option Payload) (plotOk : Bool) :
    ChartState × Outcome :=
  let st1 : ChartState := { st with data := { st.data with full := data } }
  if timeframe = "1d" then
    match data with
    | none => (st1, .failed)
    | some d =>
      let displayData := dailyDisplayData d
      let traces := createEnhancedTraces st1.symbol displayData st1.display
      let layout := loadLayout toUpperCase symbol timeframe st1.display
      if plotOk then
        ({ st1 with el := some chartEl, layout := some layout },
          .rendered { displayData := displayData, traces := traces, layout := layout })
      else (st1, .failed)
  else
    let sessions := separateSessionData (data.map (·.series))
    let st2 : ChartState :=
      { st1 with data := { st1.data with regular := sessions.regular,
                                         premarket := sessions.premarket,
                                         afterhours := sessions.afterhours } }
    let displayData := buildDisplayData st2
    let traces := createEnhancedTraces st2.symbol displayData st2.display
    let layout := loadLayout toUpperCase symbol timeframe st2.display
    if plotOk then
      ({ st2 with el := some chartEl, layout := some layout },
        .rendered { displayData := displayData, traces := traces, layout := layout })
    else (st2, .failed)

/-- The function `loadEnhancedChart()` (lines 291 to 440) as a transition of
`chartState`: `toUpperCase` is the library method `String.prototype.toUpperCase`, `fetch`
is the outcome of the request and `plotOk` tells whether `Plotly.newPlot` succeeds. -/
def loadEnhancedChart (toUpperCase : String → String) (st : ChartState) (page : Page)
    (fetch : FetchOutcome) (plotOk : Bool) : ChartState × Outcome :=
  match page.chartEl with
  | none => (st, .noContainer)
  | some chartEl =>
    let symbol := (toUpperCase (strOr page.symbolInput "AAPL"))
    let timeframe := strOr page.timeframeInput "1d"
    let st1 : ChartState :=
      { st with symbol := some symbol, timeframe := some timeframe,
                display := { showPremarket := page.showPremarket.getD false,
                             showAfterhours := page.showAfterhours.getD false,
                             hideClosed := page.hideClosed.getD true,
                             highlightExtended := page.highlightExtended.getD false } }
    match fetch with
    | .rejected => (st1, .failed)
    | .unparsable => (st1, .failed)
    | .body ok data =>
      if !ok then (st1, .failed)
      else if (match data with
               | some d => d.hasError
               | none => false) then (st1, .failed)
      else loadAccepted toUpperCase st1 chartEl symbol timeframe data plotOk

/-- The `change` handler installed by `setupEnhancedToggleHandlers` (lines 649 to 684) as
a transition of `chartState`; the second component is what `Plotly.react` receives,
`none` when the handler does nothing or stops on a `null` layout. -/
def toggleHandler (st : ChartState) (page : Page) : ChartState × Option Render :=
  match st.data.full with
  | none => (st, none)
  | some _ =>
    let st1 : ChartState :=
      { st with display := { showPremarket := page.showPremarket.getD true,
                             showAfterhours := page.showAfterhours.getD true,
                             hideClosed := page.hideClosed.getD true,
                             highlightExtended := page.highlightExtended.getD true } }
    let displayData := buildDisplayData st1
    let traces := createEnhancedTraces st1.symbol displayData st1.display
    let rangebreaks := buildEnhancedRangebreaks
      { showPremarket := some st1.display.showPremarket,
        showAfterhours := some st1.display.showAfterhours,
        hideClosed := some st1.display.hideClosed,
        timeframe := some (st1.timeframe.getD "null") }
    match st1.layout with
    | none => (st1, none)
    | some layout =>
      (st1, some { displayData := displayData, traces := traces,
                   layout := { layout with rangebreaks := rangebreaks,
                                           showlegend := st1.display.highlightExtended } })

/-- A page with a chart container, the daily timeframe selected and no checkbox. -/
def dailyPage : Page :=
  { chartEl := some "chart", symbolInput := some "AAPL", timeframeInput := some "1d",
    showPremarket := none, showAfterhours := none, hideClosed := none,
    highlightExtended := none }

/-- A body of the candles endpoint with one daily bar. -/
def oneBarPayload : Payload :=
  { error := none,
    series := { t := some [1700000000000], o := [.num 100], h := [.num 101], l := [.num 99],
                c := [.num 100], v := some [.num 5] } }

/-- The failing fetch outcomes of the specification: the fetch is rejected, the body
cannot be parsed, the status is not a success, or the body carries an `error` field. -/
def FetchOutcome.fails : FetchOutcome → Bool
  | .rejected => true
  | .unparsable => true
  | .body ok data =>
    !ok || (match data with
            | some d => d.hasError
            | none => false)

/-- The display preferences that `loadEnhancedChart` reads from the page (lines 304 to
307). -/
def loadDisplay (page : Page) : DisplayPrefs :=
  { showPremarket := page.showPremarket.getD false,
    showAfterhours := page.showAfterhours.getD false,
    hideClosed := page.hideClosed.getD true,
    highlightExtended := page.highlightExtended.getD false }

/-! ## Separation followed by assembly -/

/-- The label that the `if` chain of `separateSessionData` (lines 130 to 136) gives a
timestamp; `none` when the bar is unclassified. -/
def classify (timestamp : Int) : Option SessionLabel :=
  if isPremarket (etTotalMinutes timestamp) then some .premarket
  else if isRegular (etTotalMinutes timestamp) then some .regular
  else if isAfterhours (etTotalMinutes timestamp) then some .afterhours
  else none

/-- A bar with a session tag. -/
def Bar.tagged (S : SessionLabel) (bar : Bar) : Entry :=
  { t := bar.t, o := bar.o, h := bar.h, l := bar.l, c := bar.c, v := bar.v, session := S }

/-- An input bar tagged with the label of its timestamp, when it is accepted. -/
def acceptedEntry (bar : Bar) : Option Entry :=
  match classify bar.t with
  | some S => if accepted S bar then some (bar.tagged S) else none
  | none => none

/-- The accepted bars of a raw series in input order, each tagged with the label of
its timestamp: the input bars of the specification that are accepted. -/
def acceptedEntries (ts : List Int) (o h l c : List JsVal) (v : Option (List JsVal)) :
    List Entry :=
  (specInputBars ts o h l c v).filterMap acceptedEntry

/-- The chart state after the buckets of a separation are stored and both extended
sessions are shown. -/
def ChartState.withSessions (st : ChartState) (sessions : Sessions) : ChartState :=
  { st with data := { st.data with regular := sessions.regular,
                                   premarket := sessions.premarket,
                                   afterhours := sessions.afterhours },
            display := { st.display with showPremarket := true, showAfterhours := true } }

/-! ## Support and resistance overlay -/

/-- The parsed body of the level detector: an optional `error` field, `levels` and
`pivot_circles` (`none` when the property is not an array). -/
structure SrPayload where
  error : Option String
  levels : Option (List ℚ)
  pivot_circles : Option (List Shape)
  deriving DecidableEq, Repr

/-- The outcome of the request to the level detector followed by `res.json()`. -/
inductive SrOutcome where
  | rejected
  | unparsable
  | body (ok : Bool) (payload : SrPayload)
  deriving DecidableEq, Repr

/-- Whether `payload.error` is truthy. -/
def SrPayload.hasError (payload : SrPayload) : Bool :=
  match payload.error with
  | some e => decide (e ≠ "")
  | none => false

/-! A finite JavaScript number is an IEEE binary64 double; it is given here by its exact
rational value, and the result of an arithmetic operation is the double nearest the exact
result (ties to even), which `roundToDouble` computes. -/

/-- The integer nearest `n / d`, ties going to the even one. -/
def roundHalfEven (n d : Nat) : Nat :=
  if 2 * (n % d) < d then n / d
  else if d < 2 * (n % d) then n / d + 1
  else if n / d % 2 = 0 then n / d
  else n / d + 1

/-- The binary exponent of `n / d` for `n, d > 0`: the `E` with `2 ^ E ≤ n / d < 2 ^ (E + 1)`. -/
def binaryExponent (n d : Nat) : Int :=
  if d * 2 ^ (n.log2 - d.log2) ≤ n * 2 ^ (d.log2 - n.log2) then (n.log2 : Int) - d.log2
  else (n.log2 : Int) - d.log2 - 1

/-- The double nearest `n / d` (ties to even): 53 significant bits, the spacing never
below `2 ^ (-1074)`, and `2 ^ 1024` standing for `Infinity`. -/
def roundMagnitude (n d : Nat) : ℚ :=
  if n = 0 then 0
  else
    let e := max (binaryExponent n d - 52) (-1074)
    min ((roundHalfEven (n * 2 ^ (-e).toNat) (d * 2 ^ e.toNat) : ℚ) * 2 ^ e.toNat /
      2 ^ (-e).toNat) (2 ^ 1024)

/-- The double nearest a rational (ties to even), `2 ^ 1024` and its opposite standing
for the infinities. -/
def roundToDouble (x : ℚ) : ℚ :=
  if x < 0 then -roundMagnitude x.num.natAbs x.den else roundMagnitude x.num.natAbs x.den

/-- The expression `a - b` on two doubles. -/
def jsSub (a b : ℚ) : ℚ := roundToDouble (a - b)

/-- An element of `levels` (lines 507 to 510) for a finite current price. -/
structure Level where
  price : ℚ
  dist : ℚ
  deriving DecidableEq, Repr

/-- The order of the comparator `(a, b) => a.dist - b.dist`: the difference of two
doubles has the sign of their exact difference, and two infinite distances give `NaN`,
which the sort takes as equal. -/
def Level.le (a b : Level) : Prop := a.dist ≤ b.dist

instance Level.decidableLe : DecidableRel Level.le := fun a b =>
  inferInstanceAs (Decidable (a.dist ≤ b.dist))

instance Level.isTotalLe : IsTotal Level Level.le := ⟨fun a b => le_total a.dist b.dist⟩

instance Level.isTransLe : IsTrans Level Level.le := ⟨fun _ _ _ hab hbc => le_trans hab hbc⟩

/-- The constant `MAX_LEVELS`. -/
def MAX_LEVELS : Nat := 4

/-- The level selection of lines 505 to 512 for a finite current price: map each price
to `{ price, dist: Math.abs(price - currentPrice) }`, sort by `dist` (a stable sort) and
keep the first `MAX_LEVELS`. -/
def selectLevels (currentPrice : ℚ) (prices : List ℚ) : List Level :=
  ((prices.map fun price =>
      ({ price := price, dist := |jsSub price currentPrice| } : Level)).insertionSort
    Level.le).take MAX_LEVELS

/-- The prices kept by lines 505 to 512. A `null` current price counts as 0 in
`price - currentPrice`. When the current price is `undefined`, `NaN` or an infinity,
every `dist` is `NaN` or `Infinity`, every difference `a.dist - b.dist` is `NaN`, and the
sort keeps the order received. -/
def keptPrices (currentPrice : JsVal) (prices : List ℚ) : List ℚ :=
  match currentPrice with
  | .num p => (selectLevels p prices).map (·.price)
  | .null => (selectLevels 0 prices).map (·.price)
  | _ => prices.take MAX_LEVELS

/-- The test `price > currentPrice` (line 523); a `null` current price counts as 0. -/
def isResistance (price : ℚ) (currentPrice : JsVal) : Bool :=
  match currentPrice with
  | .num p => decide (price > p)
  | .null => decide (price > 0)
  | .negInf => true
  | _ => false

/-- The horizontal line pushed for one kept level (lines 528 to 541). -/
def levelShape (currentPrice : JsVal) (x0 x1 : Option Int) (price : ℚ) : Shape :=
  { type := "line", x0 := x0, x1 := x1, y0 := price, y1 := price,
    color := if isResistance price currentPrice then "#fd7e14" else "#007bff",
    width := 3, _generated_by := some "auto_sr" }

/-- The label pushed for the kept level of index `idx` (lines 544 to 557). -/
def levelLabel (currentPrice : JsVal) (idx : Nat) (price : ℚ) : Annotation :=
  { y := price,
    typeLabel := if isResistance price currentPrice then "R" else "S",
    rank := idx + 1,
    color := if isResistance price currentPrice then "#fd7e14" else "#007bff",
    _generated_by := some "auto_sr" }

/-- The labels pushed by `levels.forEach((lv, idx) => ...)`, from index `idx` on. -/
def levelLabelsFrom (currentPrice : JsVal) : Nat → List ℚ → List Annotation
  | _, [] => []
  | idx, price :: rest =>
    levelLabel currentPrice idx price :: levelLabelsFrom currentPrice (idx + 1) rest

/-- The filter `s => s._generated_by !== 'auto_sr'` on shapes. -/
def userShapes (shapes : Option (List Shape)) : List Shape :=
  (shapes.getD []).filter fun s => decide (s._generated_by ≠ some "auto_sr")

/-- The filter `a => a._generated_by !== 'auto_sr'` on annotations. -/
def userAnnotations (annotations : Option (List Annotation)) : List Annotation :=
  (annotations.getD []).filter fun a => decide (a._generated_by ≠ some "auto_sr")

/-- The pivot circles of the payload, each tagged `auto_sr` (lines 561 to 566). -/
def pivotShapes (payload : SrPayload) : List Shape :=
  (payload.pivot_circles.getD []).map fun shape => { shape with _generated_by := some "auto_sr" }

/-- The function `applyAutoSupportResistance(displayData, symbol, timeframe)` (lines 443
to 606) as a transition of `chartState`; `sr` is the outcome of the detector request.
The legend under the chart is not part of the state. -/
def applyAutoSupportResistance (st : ChartState) (displayData : DisplayData) (sr : SrOutcome) :
    ChartState :=
  match displayData.t with
  | none => st
  | some t =>
    if t.length < 30 then st
    else if displayData.c.length = 0 then st
    else
      let currentPrice := idx displayData.c (displayData.c.length - 1)
      match sr with
      | .rejected => st
      | .unparsable => st
      | .body ok payload =>
        if !ok || payload.hasError then st
        else
          let prices := payload.levels.getD []
          if prices.length = 0 then
            match st.el, st.layout with
            | some _, some layout =>
              { st with layout := some { layout with
                  shapes := some (userShapes layout.shapes),
                  annotations := some (userAnnotations layout.annotations) } }
            | _, _ => st
          else
            match st.el, st.layout with
            | some _, some layout =>
              let kept := keptPrices currentPrice prices
              let newShapes := kept.map (levelShape currentPrice t.head? t.getLast?) ++
                pivotShapes payload
              let newAnnotations := levelLabelsFrom currentPrice 0 kept
              { st with layout := some { layout with
                  shapes := some (userShapes layout.shapes ++ newShapes),
                  annotations := some (userAnnotations layout.annotations ++ newAnnotations) } }
            | _, _ => st

/-- A display series of thirty bars that all close at 100. -/
def thirtyBars : DisplayData :=
  { t := some (List.replicate 30 1700000000000), o := List.replicate 30 (.num 100),
    h := List.replicate 30 (.num 100), l := List.replicate 30 (.num 100),
    c := List.replicate 30 (.num 100), v := List.replicate 30 (.num 1), session := none }

/-- An automatic level line at 95, tagged `auto_sr`. -/
def autoLine : Shape :=
  { type := "line", x0 := none, x1 := none, y0 := 95, y1 := 95, color := "#007bff",
    width := 3, _generated_by := some "auto_sr" }

/-- A line drawn by the user at 90. -/
def userLine : Shape :=
  { type := "line", x0 := none, x1 := none, y0 := 90, y1 := 90, color := "#444", width := 2,
    _generated_by := none }

/-- The double nearest 199.9. -/
def d199_9 : ℚ := 7033355980557517 / 35184372088832

/-- The double nearest 0.1. -/
def d0_1 : ℚ := 3602879701896397 / 36028797018963968

/-- A rendered chart whose layout holds one automatic line and one line of the user. -/
def overlayState : ChartState :=
  { initialChartState with
    el := some "chart",
    layout := some { title := "AAPL - 5M", rangebreaks := [], showlegend := false,
                     shapes := some [autoLine, userLine], annotations := some [] } }

/-! ## Theorems -/

/-- Inside the range of valid dates, `etTotalMinutes` is the minute of day of the
specification. -/
theorem etTotalMinutes_eq (ts : Int) (h : ts.natAbs ≤ 8640000000000000) :
    etTotalMinutes ts = some (specMinuteOfDay ts) := by
  have h0 : 0 ≤ ts / 3600000 % 24 - 5 + 24 := by omega
  simp only [etTotalMinutes, newDate, if_pos h, getUTCHours, getUTCMinutes, Option.map_some',
    specMinuteOfDay, Int.tmod_eq_emod h0 (by decide : (0 : Int) ≤ 24)]
  congr 1
  omega

/-- Outside the range of valid dates, `etTotalMinutes` is `NaN`. -/
theorem etTotalMinutes_invalid (ts : Int) (h : ¬ ts.natAbs ≤ 8640000000000000) :
    etTotalMinutes ts = none := by
  simp [etTotalMinutes, newDate, if_neg h, getUTCHours, getUTCMinutes]

/-- C1, as stated, fails: the integer timestamp 8640000000060000 has minute of day 1141,
inside [960, 1200), but `new Date` of it is invalid and the bar gets no label. -/
theorem C1_counterexample :
    specMinuteOfDay 8640000000060000 = 1141 ∧
      isPremarket (etTotalMinutes 8640000000060000) = false ∧
      isRegular (etTotalMinutes 8640000000060000) = false ∧
      isAfterhours (etTotalMinutes 8640000000060000) = false := by
  refine ⟨by decide, ?_, ?_, ?_⟩ <;>
    rw [etTotalMinutes_invalid _ (by decide)] <;> rfl

/-- C1, amended: for every integer timestamp `ts`, with `m` the minute of day of the
specification, the bar is premarket iff `ts` is a valid date and 240 ≤ m < 570, regular iff
valid and 570 ≤ m < 960, afterhours iff valid and 960 ≤ m < 1200; no two labels hold
together; and the boundary minutes 04:00, 09:30, 16:00 (09:00, 14:30, 21:00 UTC) open
their range while 20:00 (01:00 UTC) has no label. -/
theorem C1_session_classification (ts : Int) :
    (isPremarket (etTotalMinutes ts) = true ↔
        ts.natAbs ≤ 8640000000000000 ∧ 240 ≤ specMinuteOfDay ts ∧ specMinuteOfDay ts < 570) ∧
      (isRegular (etTotalMinutes ts) = true ↔
        ts.natAbs ≤ 8640000000000000 ∧ 570 ≤ specMinuteOfDay ts ∧ specMinuteOfDay ts < 960) ∧
      (isAfterhours (etTotalMinutes ts) = true ↔
        ts.natAbs ≤ 8640000000000000 ∧ 960 ≤ specMinuteOfDay ts ∧ specMinuteOfDay ts < 1200) ∧
      ¬ (isPremarket (etTotalMinutes ts) = true ∧ isRegular (etTotalMinutes ts) = true) ∧
      ¬ (isPremarket (etTotalMinutes ts) = true ∧ isAfterhours (etTotalMinutes ts) = true) ∧
      ¬ (isRegular (etTotalMinutes ts) = true ∧ isAfterhours (etTotalMinutes ts) = true) ∧
      (specMinuteOfDay 32400000 = 240 ∧ isPremarket (etTotalMinutes 32400000) = true) ∧
      (specMinuteOfDay 52200000 = 570 ∧ isRegular (etTotalMinutes 52200000) = true) ∧
      (specMinuteOfDay 75600000 = 960 ∧ isAfterhours (etTotalMinutes 75600000) = true) ∧
      (specMinuteOfDay 3600000 = 1200 ∧ isPremarket (etTotalMinutes 3600000) = false ∧
        isRegular (etTotalMinutes 3600000) = false ∧
        isAfterhours (etTotalMinutes 3600000) = false) := by
  have b1 := etTotalMinutes_eq 32400000 (by decide)
  have b2 := etTotalMinutes_eq 52200000 (by decide)
  have b3 := etTotalMinutes_eq 75600000 (by decide)
  have b4 := etTotalMinutes_eq 3600000 (by decide)
  have e1 : specMinuteOfDay 32400000 = 240 := by decide
  have e2 : specMinuteOfDay 52200000 = 570 := by decide
  have e3 : specMinuteOfDay 75600000 = 960 := by decide
  have e4 : specMinuteOfDay 3600000 = 1200 := by decide
  rw [e1] at b1
  rw [e2] at b2
  rw [e3] at b3
  rw [e4] at b4
  have hb : (specMinuteOfDay 32400000 = 240 ∧ isPremarket (etTotalMinutes 32400000) = true) ∧
      (specMinuteOfDay 52200000 = 570 ∧ isRegular (etTotalMinutes 52200000) = true) ∧
      (specMinuteOfDay 75600000 = 960 ∧ isAfterhours (etTotalMinutes 75600000) = true) ∧
      (specMinuteOfDay 3600000 = 1200 ∧ isPremarket (etTotalMinutes 3600000) = false ∧
        isRegular (etTotalMinutes 3600000) = false ∧
        isAfterhours (etTotalMinutes 3600000) = false) := by
    rw [b1, b2, b3, b4]
    exact ⟨⟨e1, rfl⟩, ⟨e2, rfl⟩, ⟨e3, rfl⟩, e4, rfl, rfl, rfl⟩
  by_cases h : ts.natAbs ≤ 8640000000000000
  · rw [etTotalMinutes_eq ts h]
    simp only [isPremarket, isRegular, isAfterhours, Bool.and_eq_true, decide_eq_true_eq]
    refine ⟨by tauto, by tauto, by tauto, by omega, by omega, by omega, hb⟩
  · rw [etTotalMinutes_invalid ts h]
    simp only [isPremarket, isRegular, isAfterhours]
    refine ⟨by simp [h], by simp [h], by simp [h], by simp, by simp, by simp, hb⟩

/-- C3: `buildEnhancedRangebreaks` equals the decision table of the specification for
every input, an absent option taking its default (`true`, `true`, `true`, `'1d'`): nothing
when `hideClosed` is false; else the weekend break alone for `'1d'`; else the weekend
break followed by the two hour breaks of the row (showPremarket, showAfterhours). -/
theorem C3_rangebreaks_decision_table (options : RangebreakOptions) :
    buildEnhancedRangebreaks options =
      specRangebreaks (options.hideClosed.getD true) (options.timeframe.getD "1d")
        (options.showPremarket.getD true) (options.showAfterhours.getD true) := by
  unfold buildEnhancedRangebreaks specRangebreaks
  cases options.hideClosed.getD true <;> cases options.showPremarket.getD true <;>
    cases options.showAfterhours.getD true <;>
    by_cases h : options.timeframe.getD "1d" = "1d" <;>
    simp [h, specWeekend, specHourBreaks]

/-- C4: with `hideClosed` true and an intraday timeframe, a minute of the day is inside
one of the hour breaks returned iff it is outside the regular session, outside premarket
when `showPremarket` is true, and outside afterhours when `showAfterhours` is true. -/
theorem C4_hour_breaks_hide_unselected (showPremarket showAfterhours : Bool) (timeframe : String)
    (m : Nat) (htf : timeframe ≠ "1d") (hm : m < 1440) :
    hiddenByHourBreaks
        (buildEnhancedRangebreaks
          { showPremarket := some showPremarket, showAfterhours := some showAfterhours,
            hideClosed := some true, timeframe := some timeframe }) m = true ↔
      (isRegular (some (m : Int)) = false ∧
        (showPremarket = true → isPremarket (some (m : Int)) = false) ∧
        (showAfterhours = true → isAfterhours (some (m : Int)) = false)) := by
  have c1 : ((570 : ℚ) ≤ (m : ℚ)) ↔ 570 ≤ m := by exact_mod_cast Iff.rfl
  have c2 : ((m : ℚ) < 240) ↔ m < 240 := by exact_mod_cast Iff.rfl
  have c3 : ((m : ℚ) < 570) ↔ m < 570 := by exact_mod_cast Iff.rfl
  have c4 : ((960 : ℚ) ≤ (m : ℚ)) ↔ 960 ≤ m := by exact_mod_cast Iff.rfl
  have c5 : ((1200 : ℚ) ≤ (m : ℚ)) ↔ 1200 ≤ m := by exact_mod_cast Iff.rfl
  have c6 : ((m : ℚ) < 1440) ↔ m < 1440 := by exact_mod_cast Iff.rfl
  have c7 : ((0 : ℚ) ≤ (m : ℚ)) := by positivity
  cases showPremarket <;> cases showAfterhours <;>
    simp [buildEnhancedRangebreaks, htf, hiddenByHourBreaks, hourBreakCovers, isRegular,
      isPremarket, isAfterhours] <;>
    norm_num <;> omega

/-- C4 applied at 05:00 (minute 300) of a five-minute chart with both extended sessions
shown. -/
theorem C4_hour_breaks_hide_unselected_witness :
    hiddenByHourBreaks
        (buildEnhancedRangebreaks
          { showPremarket := some true, showAfterhours := some true,
            hideClosed := some true, timeframe := some "5m" }) 300 = true ↔
      (isRegular (some ((300 : Nat) : Int)) = false ∧
        (true = true → isPremarket (some ((300 : Nat) : Int)) = false) ∧
        (true = true → isAfterhours (some ((300 : Nat) : Int)) = false)) :=
  C4_hour_breaks_hide_unselected true true "5m" 300 (by decide) (by decide)

/-! ### Separation -/

/-- No two of the three session tests hold for the same minute value. -/
theorem session_tests_exclusive (m : Option Int) :
    (isPremarket m = true → isRegular m = false ∧ isAfterhours m = false) ∧
      (isRegular m = true → isPremarket m = false ∧ isAfterhours m = false) ∧
      (isAfterhours m = true → isPremarket m = false ∧ isRegular m = false) := by
  cases m with
  | none => simp [isPremarket, isRegular, isAfterhours]
  | some x =>
    simp only [isPremarket, isRegular, isAfterhours, Bool.and_eq_true, decide_eq_true_eq,
      Bool.and_eq_false_iff, decide_eq_false_iff_not]
    omega

theorem Series.append_empty (s : Series) : s.append (Series.ofBars []) = s := by
  simp [Series.append, Series.ofBars]

theorem Series.push_append (s : Series) (bar : Bar) (bars : List Bar) :
    (s.push bar).append (Series.ofBars bars) = s.append (Series.ofBars (bar :: bars)) := by
  simp [Series.append, Series.ofBars, Series.push]

/-- One iteration appends the bar to the bucket that accepts it, and to no other. -/
theorem separateBody_eq (data : RawSeries) (acc : Buckets) (i : Nat) (timestamp : Int) :
    separateBody data acc i timestamp =
      { regular := if accepted .regular (barAt data i timestamp)
          then acc.regular.push (barAt data i timestamp) else acc.regular,
        premarket := if accepted .premarket (barAt data i timestamp)
          then acc.premarket.push (barAt data i timestamp) else acc.premarket,
        afterhours := if accepted .afterhours (barAt data i timestamp)
          then acc.afterhours.push (barAt data i timestamp) else acc.afterhours } := by
  have hx := session_tests_exclusive (etTotalMinutes timestamp)
  have ht : (barAt data i timestamp).t = timestamp := rfl
  simp only [separateBody, accepted, hasLabel, ht]
  cases hp : isPremarket (etTotalMinutes timestamp) <;>
    cases hr : isRegular (etTotalMinutes timestamp) <;>
    cases ha : isAfterhours (etTotalMinutes timestamp) <;>
    cases hz : (barAt data i timestamp).v.isZero <;>
    cases ho : (barAt data i timestamp).o.isFinite <;>
    cases hh : (barAt data i timestamp).h.isFinite <;>
    cases hl : (barAt data i timestamp).l.isFinite <;>
    cases hc : (barAt data i timestamp).c.isFinite <;>
    simp_all

/-- The loop appends to each bucket the accepted bars of that session, in input order. -/
theorem separateLoop_eq (data : RawSeries) (rest : List Int) :
    ∀ (i : Nat) (acc : Buckets), separateLoop data i rest acc =
      { regular := acc.regular.append
          (Series.ofBars ((barsFrom data i rest).filter (accepted .regular))),
        premarket := acc.premarket.append
          (Series.ofBars ((barsFrom data i rest).filter (accepted .premarket))),
        afterhours := acc.afterhours.append
          (Series.ofBars ((barsFrom data i rest).filter (accepted .afterhours))) } := by
  induction rest with
  | nil => intro i acc; simp [separateLoop, barsFrom, Series.append_empty]
  | cons timestamp rest ih =>
    intro i acc
    rw [separateLoop, ih, separateBody_eq]
    simp only [barsFrom, List.filter_cons]
    congr 1 <;> split <;> simp [Series.push_append]

theorem Series.empty_append (s : Series) : Series.empty.append s = s := by
  simp [Series.append, Series.empty]

/-- The volume read by the loop is the volume of the specification. -/
theorem orZero_idxOpt (v : Option (List JsVal)) (i : Nat) :
    (idxOpt v i).orZero = specVolume (v.bind fun vs => vs.get? i) := by
  cases v with
  | none => rfl
  | some vs =>
    simp only [idxOpt, idx, List.getD_eq_getElem?_getD, Option.some_bind, List.get?_eq_getElem?]
    cases hcell : vs[i]? with
    | none => rfl
    | some cell => cases cell <;> rfl

/-- The bars read by the loop from index `pre.length` on are the bars of the
specification at those indices. -/
theorem barsFrom_eq_spec (o h l c : List JsVal) (v : Option (List JsVal)) (rest : List Int) :
    ∀ (pre : List Int),
      barsFrom { t := some (pre ++ rest), o := o, h := h, l := l, c := c, v := v }
          pre.length rest =
        (List.range' pre.length rest.length).map (specBarAt (pre ++ rest) o h l c v) := by
  induction rest with
  | nil => intro pre; rfl
  | cons t rest ih =>
    intro pre
    have hstep := ih (pre ++ [t])
    simp only [List.append_assoc, List.singleton_append, List.length_append,
      List.length_singleton] at hstep
    have hhead : (pre ++ t :: rest).getD pre.length 0 = t := by
      rw [List.getD_eq_getElem?_getD, List.getElem?_append_right (Nat.le_refl _)]
      simp
    simp only [barsFrom, List.length_cons, List.range'_succ, List.map_cons, hstep]
    congr 1
    simp only [barAt, specBarAt, idx, orZero_idxOpt, hhead]

/-- The bars that `separateSessionData` reads are the input bars of the specification. -/
theorem inputBars_eq_spec (ts : List Int) (o h l c : List JsVal) (v : Option (List JsVal)) :
    inputBars { t := some ts, o := o, h := h, l := l, c := c, v := v } ts =
      specInputBars ts o h l c v := by
  have h0 := barsFrom_eq_spec o h l c v ts []
  simp only [List.nil_append, List.length_nil] at h0
  rw [inputBars, h0, specInputBars, List.range_eq_range']

/-- C2: for every raw series with a timestamp array, each bucket of `separateSessionData`
is exactly the input bars accepted for that session (classified as that session, finite
open, high, low and close, volume non-zero or session regular), in input order, bar `i`
being the cells at index `i` with the volume taken as 0 when absent; no bar is accepted
for two sessions. Of three zero-volume bars at 09:31, 04:05 and 17:00 (14:31, 09:05 and
22:00 UTC) only the first is kept, in the regular bucket. Of six bars at 04:05 (volume
9), 04:06 (volume `null`), 09:31 (volume 0), 09:32 (high `NaN`), 17:00 (volume 7) and
20:00 (volume 8), the first goes to premarket, the third to regular, the fifth to
afterhours, each with its own cells, and the others to no bucket. Without a volume array
a bar at 09:31 is kept with volume 0 and a bar at 04:05 is dropped. -/
theorem C2_separate_stable_partition (ts : List Int) (o h l c : List JsVal)
    (v : Option (List JsVal)) :
    separateSessionData (some { t := some ts, o := o, h := h, l := l, c := c, v := v }) =
        { regular := some (Series.ofBars
            ((specInputBars ts o h l c v).filter (accepted .regular))),
          premarket := some (Series.ofBars
            ((specInputBars ts o h l c v).filter (accepted .premarket))),
          afterhours := some (Series.ofBars
            ((specInputBars ts o h l c v).filter (accepted .afterhours))) } ∧
      (∀ (bar : Bar) (S S' : SessionLabel),
        accepted S bar = true → accepted S' bar = true → S = S') ∧
      separateSessionData (some
          { t := some [52260000, 32700000, 79200000], o := [.num 1, .num 1, .num 1],
            h := [.num 1, .num 1, .num 1], l := [.num 1, .num 1, .num 1],
            c := [.num 1, .num 1, .num 1], v := some [.num 0, .num 0, .num 0] }) =
        { regular := some { t := [52260000], o := [.num 1], h := [.num 1], l := [.num 1],
                            c := [.num 1], v := [.num 0] },
          premarket := some Series.empty, afterhours := some Series.empty } ∧
      separateSessionData (some
          { t := some [32700000, 32760000, 52260000, 52320000, 79200000, 3600000],
            o := [.num 10, .num 20, .num 30, .num 40, .num 50, .num 60],
            h := [.num 12, .num 22, .num 32, .nan, .num 52, .num 62],
            l := [.num 9, .num 19, .num 29, .num 39, .num 49, .num 59],
            c := [.num 11, .num 21, .num 31, .num 41, .num 51, .num 61],
            v := some [.num 9, .null, .num 0, .num 5, .num 7, .num 8] }) =
        { regular := some { t := [52260000], o := [.num 30], h := [.num 32], l := [.num 29],
                            c := [.num 31], v := [.num 0] },
          premarket := some { t := [32700000], o := [.num 10], h := [.num 12], l := [.num 9],
                              c := [.num 11], v := [.num 9] },
          afterhours := some { t := [79200000], o := [.num 50], h := [.num 52],
                               l := [.num 49], c := [.num 51], v := [.num 7] } } ∧
      separateSessionData (some
          { t := some [52260000, 32700000], o := [.num 30, .num 10], h := [.num 32, .num 12],
            l := [.num 29, .num 9], c := [.num 31, .num 11], v := none }) =
        { regular := some { t := [52260000], o := [.num 30], h := [.num 32], l := [.num 29],
                            c := [.num 31], v := [.num 0] },
          premarket := some Series.empty, afterhours := some Series.empty } := by
  refine ⟨?_, ?_, ?_, ?_, ?_⟩
  · rw [← inputBars_eq_spec]
    simp only [separateSessionData, separateLoop_eq, Series.empty_append, inputBars]
  · intro bar S S' hS hS'
    have hx := session_tests_exclusive (etTotalMinutes bar.t)
    simp only [accepted, Bool.and_eq_true] at hS hS'
    have h1 := hS.1.1
    have h2 := hS'.1.1
    cases S <;> cases S' <;> simp_all [hasLabel]
  · decide
  · decide
  · decide

/-! ### Display assembly -/

theorem orderedInsert_of_forall_le (a : Entry) (xs : List Entry)
    (hall : ∀ c ∈ xs, Entry.le a c) : xs.orderedInsert Entry.le a = a :: xs := by
  cases xs with
  | nil => rfl
  | cons x xs => simp [List.orderedInsert, hall x (List.mem_cons_self x xs)]

/-- Filtering after an insertion into a sorted list is the insertion into the filtered
list, or the filtered list alone when the inserted entry is filtered out. -/
theorem filter_orderedInsert (p : Entry → Bool) (a : Entry) (xs : List Entry)
    (hs : xs.Sorted Entry.le) :
    (xs.orderedInsert Entry.le a).filter p =
      if p a then (xs.filter p).orderedInsert Entry.le a else xs.filter p := by
  induction xs with
  | nil => by_cases hp : p a = true <;> simp [hp]
  | cons b xs ih =>
    have hb := List.rel_of_sorted_cons hs
    have ih' := ih hs.of_cons
    by_cases hab : Entry.le a b
    · have hins : (b :: xs).orderedInsert Entry.le a = a :: b :: xs := by
        simp [List.orderedInsert, hab]
      rw [hins]
      by_cases hp : p a = true
      · have hall : ∀ c ∈ (b :: xs).filter p, Entry.le a c := by
          intro c hc
          have hc' := (List.mem_filter.mp hc).1
          rcases List.mem_cons.mp hc' with rfl | hmem
          · exact hab
          · exact Int.le_trans hab (hb c hmem)
        rw [if_pos hp, orderedInsert_of_forall_le a _ hall, List.filter_cons_of_pos hp]
      · rw [if_neg hp, List.filter_cons_of_neg hp]
    · have hins : (b :: xs).orderedInsert Entry.le a = b :: xs.orderedInsert Entry.le a := by
        simp [List.orderedInsert, hab]
      rw [hins]
      by_cases hpb : p b = true
      · rw [List.filter_cons_of_pos hpb, ih', List.filter_cons_of_pos hpb]
        by_cases hp : p a = true
        · simp [hp, List.orderedInsert, hab]
        · simp [hp]
      · rw [List.filter_cons_of_neg hpb, ih', List.filter_cons_of_neg hpb]

/-- The sort is stable: it commutes with the deletion of entries. -/
theorem sortByTimestamp_filter (p : Entry → Bool) (xs : List Entry) :
    (sortByTimestamp xs).filter p = sortByTimestamp (xs.filter p) := by
  induction xs with
  | nil => rfl
  | cons a xs ih =>
    unfold sortByTimestamp at ih ⊢
    rw [List.insertionSort, filter_orderedInsert p a _ (List.sorted_insertionSort Entry.le xs), ih]
    by_cases hp : p a = true
    · rw [if_pos hp, List.filter_cons_of_pos hp, List.insertionSort]
    · rw [if_neg hp, List.filter_cons_of_neg hp]

theorem sortByTimestamp_sorted (xs : List Entry) :
    ((sortByTimestamp xs).map (·.t)).Sorted (· ≤ ·) := by
  have hs : (sortByTimestamp xs).Sorted Entry.le := List.sorted_insertionSort Entry.le xs
  exact List.pairwise_map.mpr hs

theorem sortByTimestamp_perm (xs : List Entry) : (sortByTimestamp xs).Perm xs :=
  List.perm_insertionSort Entry.le xs

theorem entriesFrom_session (bucket : Series) (S : SessionLabel) (rest : List Int) :
    ∀ (i : Nat), ∀ e ∈ entriesFrom bucket S i rest, e.session = S := by
  induction rest with
  | nil => intro i e he; simp [entriesFrom] at he
  | cons t rest ih =>
    intro i e he
    simp only [entriesFrom, List.mem_cons] at he
    rcases he with rfl | he
    · rfl
    · exact ih (i + 1) e he

theorem bucketEntries_session (bucket : Option Series) (S : SessionLabel) :
    ∀ e ∈ bucketEntries bucket S, e.session = S := by
  cases bucket with
  | none => intro e he; simp [bucketEntries] at he
  | some s => exact entriesFrom_session s S s.t 0

theorem entriesFrom_length (bucket : Series) (S : SessionLabel) (rest : List Int) :
    ∀ (i : Nat), (entriesFrom bucket S i rest).length = rest.length := by
  induction rest with
  | nil => intro i; rfl
  | cons t rest ih => intro i; simp [entriesFrom, ih]

theorem bucketEntries_length (bucket : Option Series) (S : SessionLabel) :
    (bucketEntries bucket S).length = bucketLength bucket := by
  cases bucket with
  | none => rfl
  | some s => exact entriesFrom_length s S s.t 0

/-- Reading the rows of the display data built from a list of entries gives the list. -/
theorem rows_ofEntries (es : List Entry) : (DisplayData.ofEntries es).rows = es := by
  simp only [DisplayData.rows, DisplayData.ofEntries]
  induction es with
  | nil => rfl
  | cons e es ih => simp only [List.map_cons, zipRows, ih]

theorem keepWhere_map {β : Type} (q : Entry → Bool) (f : Entry → β) (es : List Entry) :
    keepWhere (es.map q) (es.map f) = (es.filter q).map f := by
  induction es with
  | nil => rfl
  | cons e es ih =>
    unfold keepWhere at ih ⊢
    by_cases hq : q e = true
    · simp [List.filter_cons, hq, ih]
    · simp [List.filter_cons, hq, ih]

/-- Deleting a session from the display data built from entries is building it from
the entries that carry another tag. -/
theorem deleteSession_ofEntries (es : List Entry) (S : SessionLabel) :
    (DisplayData.ofEntries es).deleteSession S =
      DisplayData.ofEntries (es.filter fun e => decide (e.session ≠ S)) := by
  have hk : ∀ {β : Type} (f : Entry → β),
      keepWhere ((es.map (·.session)).map fun s => decide (s ≠ S)) (es.map f) =
        (es.filter fun e => decide (e.session ≠ S)).map f := by
    intro β f
    rw [List.map_map]
    exact keepWhere_map (fun e => decide (e.session ≠ S)) f es
  simp only [DisplayData.deleteSession, DisplayData.ofEntries, Option.map_some', hk]

/-- Reading the cell just after a mapped prefix. -/
theorem idx_map_append_cons {β : Type} (f : β → JsVal) (done : List β) (x : JsVal)
    (rest : List JsVal) : idx (done.map f ++ x :: rest) done.length = x := by
  induction done with
  | nil => rfl
  | cons d done ih => simpa [idx] using ih

/-- The entries of a bucket built from bars are the bars, each with the session tag. -/
theorem entriesFrom_ofBars (S : SessionLabel) (bars : List Bar) :
    ∀ (done : List Bar),
      entriesFrom (Series.ofBars (done ++ bars)) S done.length (bars.map (·.t)) =
        bars.map fun b =>
          { t := b.t, o := b.o, h := b.h, l := b.l, c := b.c, v := b.v, session := S } := by
  induction bars with
  | nil => intro done; rfl
  | cons b bars ih =>
    intro done
    have hstep := ih (done ++ [b])
    simp only [List.append_assoc, List.singleton_append, List.length_append,
      List.length_singleton] at hstep
    simp only [List.map_cons, entriesFrom, hstep]
    simp [Series.ofBars, List.map_append, idx_map_append_cons]

theorem allData_hide_premarket (st : ChartState) :
    allData (st.withShowPremarket false) =
      (allData (st.withShowPremarket true)).filter fun e => decide (e.session ≠ .premarket) := by
  have hpre : (bucketEntries st.data.premarket .premarket).filter
      (fun e => decide (e.session ≠ .premarket)) = [] := by
    rw [List.filter_eq_nil_iff]
    intro e he
    simp [bucketEntries_session _ _ e he]
  have hreg : (bucketEntries st.data.regular .regular).filter
      (fun e => decide (e.session ≠ .premarket)) = bucketEntries st.data.regular .regular := by
    rw [List.filter_eq_self]
    intro e he
    simp [bucketEntries_session _ _ e he]
  have haft : (bucketEntries st.data.afterhours .afterhours).filter
      (fun e => decide (e.session ≠ .premarket)) =
        bucketEntries st.data.afterhours .afterhours := by
    rw [List.filter_eq_self]
    intro e he
    simp [bucketEntries_session _ _ e he]
  simp only [allData, ChartState.withShowPremarket, List.filter_append, hpre, hreg, if_true,
    Bool.false_eq_true, if_false, List.nil_append]
  by_cases hsa : st.display.showAfterhours = true
  · simp only [hsa, if_true, haft]
  · simp only [hsa, if_false, List.filter_nil, Bool.false_eq_true]

/-- C5: the timestamp array of the result of `buildDisplayData` is non-decreasing, pair
by adjacent pair, for every chart state (every three buckets, `null` ones included,
and every display preferences). -/
theorem C5_display_sorted (st : ChartState) :
    ∃ ts : List Int, (buildDisplayData st).t = some ts ∧ ts.Sorted (· ≤ ·) ∧
      ∀ (i : Nat) (hi : i + 1 < ts.length),
        ts.get ⟨i, Nat.lt_of_succ_lt hi⟩ ≤ ts.get ⟨i + 1, hi⟩ := by
  refine ⟨(sortByTimestamp (allData st)).map (fun e : Entry => e.t), rfl,
    sortByTimestamp_sorted _, ?_⟩
  intro i hi
  exact List.pairwise_iff_get.mp (sortByTimestamp_sorted (allData st)) ⟨i, Nat.lt_of_succ_lt hi⟩
    ⟨i + 1, hi⟩ (Nat.lt_succ_self i)

/-- C6: the result of `buildDisplayData` with `showPremarket` false is, array by array,
the result with `showPremarket` true from which every position tagged `'premarket'` is
deleted, whatever `showAfterhours` and the buckets are. -/
theorem C6_hide_premarket_deletes_tagged (st : ChartState) :
    buildDisplayData (st.withShowPremarket false) =
      (buildDisplayData (st.withShowPremarket true)).deleteSession .premarket := by
  simp only [buildDisplayData]
  rw [deleteSession_ofEntries, sortByTimestamp_filter, allData_hide_premarket]

/-- C7: the entries of the result of `buildDisplayData` are a permutation of the regular
bucket tagged `'regular'`, then the premarket bucket tagged `'premarket'` when
`showPremarket` is true, then the afterhours bucket tagged `'afterhours'` when
`showAfterhours` is true; every entry of a bucket carries the tag of the bucket; and
each of the seven arrays has the sum of the included buckets' lengths as its length. -/
theorem C7_display_permutation (st : ChartState) :
    (buildDisplayData st).rows.Perm
        (bucketEntries st.data.regular .regular ++
          (if st.display.showPremarket then bucketEntries st.data.premarket .premarket else []) ++
          (if st.display.showAfterhours then bucketEntries st.data.afterhours .afterhours
            else [])) ∧
      (∀ (bucket : Option Series) (S : SessionLabel), ∀ e ∈ bucketEntries bucket S,
        e.session = S) ∧
      (∀ (bars : List Bar) (S : SessionLabel),
        bucketEntries (some (Series.ofBars bars)) S = bars.map fun b =>
          { t := b.t, o := b.o, h := b.h, l := b.l, c := b.c, v := b.v, session := S }) ∧
      ∃ (ts : List Int) (ss : List SessionLabel),
        (buildDisplayData st).t = some ts ∧ (buildDisplayData st).session = some ss ∧
        ts.length = bucketLength st.data.regular +
          (if st.display.showPremarket then bucketLength st.data.premarket else 0) +
          (if st.display.showAfterhours then bucketLength st.data.afterhours else 0) ∧
        (buildDisplayData st).o.length = ts.length ∧ (buildDisplayData st).h.length = ts.length ∧
        (buildDisplayData st).l.length = ts.length ∧ (buildDisplayData st).c.length = ts.length ∧
        (buildDisplayData st).v.length = ts.length ∧ ss.length = ts.length := by
  have hperm : (sortByTimestamp (allData st)).Perm
      (bucketEntries st.data.regular .regular ++
        (if st.display.showPremarket then bucketEntries st.data.premarket .premarket else []) ++
        (if st.display.showAfterhours then bucketEntries st.data.afterhours .afterhours
          else [])) := by
    refine (sortByTimestamp_perm _).trans ?_
    unfold allData
    exact List.Perm.append_right _ List.perm_append_comm
  refine ⟨?_, bucketEntries_session, ?_, ?_⟩
  · rw [buildDisplayData, rows_ofEntries]
    exact hperm
  · intro bars S
    exact entriesFrom_ofBars S bars []
  · refine ⟨(sortByTimestamp (allData st)).map (fun e : Entry => e.t),
      (sortByTimestamp (allData st)).map (fun e : Entry => e.session), rfl, rfl, ?_, ?_⟩
    · rw [List.length_map, hperm.length_eq]
      by_cases hsp : st.display.showPremarket = true <;>
        by_cases hsa : st.display.showAfterhours = true <;>
        simp [hsp, hsa, bucketEntries_length, Nat.add_assoc]
    · simp [buildDisplayData, DisplayData.ofEntries]

/-! ### Traces -/

/-- C8, as stated, fails: for the display series of length 0 with `highlightExtended`
false, `createEnhancedTraces` returns no trace at all, not one. -/
theorem C8_counterexample :
    createEnhancedTraces (some "AAPL")
        { t := some [], o := [], h := [], l := [], c := [], v := [], session := none }
        { showPremarket := true, showAfterhours := true, hideClosed := true,
          highlightExtended := false } = [] := by
  rfl

/-- C8, amended: for every display series, with or without a session-tag sequence: when
it has no timestamp array or the array is empty, the result is the empty list of traces,
whatever `highlightExtended` is; and when it has at least one bar and `highlightExtended`
is false, the result is exactly one trace, whose `x` is the dates of all timestamps in
order, whose open, high, low and close are the arrays of the series, and whose
`showlegend` is false. -/
theorem C8_single_trace (symbol : Option String) (data : DisplayData) (prefs : DisplayPrefs) :
    ((data.t = none ∨ data.t = some []) → createEnhancedTraces symbol data prefs = []) ∧
      (∀ ts : List Int, data.t = some ts → ts ≠ [] → prefs.highlightExtended = false →
        ∃ tr : Trace, createEnhancedTraces symbol data prefs = [tr] ∧
          tr.x = ts.map (fun t => newDate t) ∧ tr.x.length = ts.length ∧
          tr.«open» = data.o ∧ tr.high = data.h ∧ tr.low = data.l ∧ tr.close = data.c ∧
          tr.showlegend = false) := by
  constructor
  · intro hempty
    rcases hempty with h | h
    · simp only [createEnhancedTraces, h]
    · simp only [createEnhancedTraces, h, List.length_nil, if_true]
  · intro ts ht hne hhl
    have hlen : ¬ ts.length = 0 := fun h => hne (List.length_eq_zero.mp h)
    refine ⟨{ type := "candlestick", x := ts.map fun t => newDate t, «open» := data.o,
              high := data.h, low := data.l, close := data.c, name := symbolOrPrice symbol,
              increasing := "#26a69a", decreasing := "#ef5350", opacity := none,
              showlegend := false }, ?_, rfl, ?_, rfl, rfl, rfl, rfl, rfl⟩
    · simp only [createEnhancedTraces, ht, hlen, if_false, hhl]
    · simp

/-- C8 applied to a one-bar series that carries a session tag, and to a series without
a timestamp array with `highlightExtended` true. -/
theorem C8_single_trace_witness :
    (∃ tr : Trace,
      createEnhancedTraces none
          { t := some [52200000], o := [.num 1], h := [.num 2], l := [.num 1], c := [.num 2],
            v := [.num 5], session := some [.regular] }
          { showPremarket := true, showAfterhours := true, hideClosed := true,
            highlightExtended := false } = [tr] ∧
        tr.x = [52200000].map (fun t => newDate t) ∧ tr.x.length = [(52200000 : Int)].length ∧
        tr.«open» = [.num 1] ∧ tr.high = [.num 2] ∧ tr.low = [.num 1] ∧ tr.close = [.num 2] ∧
        tr.showlegend = false) ∧
      createEnhancedTraces (some "AAPL")
          { t := none, o := [.num 1], h := [.num 2], l := [.num 1], c := [.num 2],
            v := [.num 5], session := some [.regular] }
          { showPremarket := true, showAfterhours := true, hideClosed := true,
            highlightExtended := true } = [] :=
  ⟨(C8_single_trace none
      { t := some [52200000], o := [.num 1], h := [.num 2], l := [.num 1], c := [.num 2],
        v := [.num 5], session := some [.regular] }
      { showPremarket := true, showAfterhours := true, hideClosed := true,
        highlightExtended := false }).2 [52200000] rfl (by decide) rfl,
    (C8_single_trace (some "AAPL")
      { t := none, o := [.num 1], h := [.num 2], l := [.num 1], c := [.num 2],
        v := [.num 5], session := some [.regular] }
      { showPremarket := true, showAfterhours := true, hideClosed := true,
        highlightExtended := true }).1 (Or.inl rfl)⟩

/-- Seven parallel arrays of equal length are the projections of their rows. -/
theorem zipRows_proj (ts : List Int) :
    ∀ (os hs ls cs vs : List JsVal) (ss : List SessionLabel),
      os.length = ts.length → hs.length = ts.length → ls.length = ts.length →
      cs.length = ts.length → vs.length = ts.length → ss.length = ts.length →
      (zipRows ts os hs ls cs vs ss).map (·.t) = ts ∧
        (zipRows ts os hs ls cs vs ss).map (·.o) = os ∧
        (zipRows ts os hs ls cs vs ss).map (·.h) = hs ∧
        (zipRows ts os hs ls cs vs ss).map (·.l) = ls ∧
        (zipRows ts os hs ls cs vs ss).map (·.c) = cs ∧
        (zipRows ts os hs ls cs vs ss).map (·.v) = vs ∧
        (zipRows ts os hs ls cs vs ss).map (·.session) = ss := by
  induction ts with
  | nil =>
    intro os hs ls cs vs ss ho hh hl hc hv hs'
    rw [List.length_nil, List.length_eq_zero] at ho hh hl hc hv hs'
    subst ho hh hl hc hv hs'
    simp [zipRows]
  | cons t ts ih =>
    intro os hs ls cs vs ss ho hh hl hc hv hs'
    cases os with
    | nil => simp at ho
    | cons o os =>
    cases hs with
    | nil => simp at hh
    | cons h hs =>
    cases ls with
    | nil => simp at hl
    | cons l ls =>
    cases cs with
    | nil => simp at hc
    | cons c cs =>
    cases vs with
    | nil => simp at hv
    | cons v vs =>
    cases ss with
    | nil => simp at hs'
    | cons s ss =>
    simp only [List.length_cons, Nat.add_right_cancel_iff] at ho hh hl hc hv hs'
    obtain ⟨h1, h2, h3, h4, h5, h6, h7⟩ := ih os hs ls cs vs ss ho hh hl hc hv hs'
    simp only [zipRows, List.map_cons, h1, h2, h3, h4, h5, h6, h7, and_self]

/-- A display series with parallel arrays is the display data of its rows. -/
theorem ofEntries_rows (d : DisplayData) (ts : List Int) (ss : List SessionLabel)
    (ht : d.t = some ts) (hs : d.session = some ss)
    (hpar : d.o.length = ts.length ∧ d.h.length = ts.length ∧ d.l.length = ts.length ∧
      d.c.length = ts.length ∧ d.v.length = ts.length ∧ ss.length = ts.length) :
    DisplayData.ofEntries d.rows = d := by
  obtain ⟨ho, hh, hl, hc, hv, hs'⟩ := hpar
  obtain ⟨h1, h2, h3, h4, h5, h6, h7⟩ := zipRows_proj ts d.o d.h d.l d.c d.v ss ho hh hl hc hv hs'
  cases d with
  | mk t o h l c v session =>
    simp only at ht hs h1 h2 h3 h4 h5 h6 h7
    subst ht hs
    simp only [DisplayData.ofEntries, DisplayData.rows, h1, h2, h3, h4, h5, h6, h7]

/-- Mapping a read over the indices of a session gives the session's rows, when the read
at each position returns the value of the row there. -/
theorem indicesFrom_map_read {β : Type} (S : SessionLabel) (read : Nat → β) (f : Entry → β)
    (es : List Entry) :
    ∀ (pre : List Entry), (∀ (k : Nat) (e : Entry), (pre ++ es).get? k = some e → read k = f e) →
      (indicesFrom S pre.length (es.map (·.session))).map read =
        (es.filter fun e => decide (e.session = S)).map f := by
  induction es with
  | nil => intro pre _; rfl
  | cons e es ih =>
    intro pre hread
    have hstep := ih (pre ++ [e]) (by
      intro k e' hk
      apply hread k e'
      simpa [List.append_assoc] using hk)
    have hhere : read pre.length = f e := by
      apply hread
      rw [List.get?_eq_getElem?, List.getElem?_append_right (Nat.le_refl _)]
      simp
    simp only [List.length_append, List.length_singleton] at hstep
    by_cases hS : e.session = S
    · simp [indicesFrom, hS, hstep, hhere, List.filter_cons]
    · simp [indicesFrom, hS, hstep, List.filter_cons]

theorem idx_map_of_get? {β : Type} (f : β → JsVal) (es : List β) (k : Nat) (e : β)
    (hk : es.get? k = some e) : idx (es.map f) k = f e := by
  simp only [List.get?_eq_getElem?] at hk
  simp [idx, List.getD_eq_getElem?_getD, List.getElem?_map, hk]

theorem dateAt_map_of_get? (es : List Entry) (k : Nat) (e : Entry)
    (hk : es.get? k = some e) : dateAt (es.map (·.t)) k = newDate e.t := by
  simp only [List.get?_eq_getElem?] at hk
  simp [dateAt, List.getElem?_map, hk]

/-- On the display data of a list of rows, the traces of one session are the trace of
the specification when the session has a row, and nothing otherwise. -/
theorem sessionTraces_ofEntries (es : List Entry) (S : SessionLabel) :
    sessionTraces (DisplayData.ofEntries es) (es.map (·.t)) (es.map (·.session)) S =
      if (es.filter fun e => decide (e.session = S)) = [] then []
      else [specSessionTrace es S] := by
  have hx := indicesFrom_map_read S (fun i => dateAt (es.map (·.t)) i)
    (fun e => newDate e.t) es [] (fun k e hk => dateAt_map_of_get? es k e (by simpa using hk))
  have ho := indicesFrom_map_read S (fun i => idx (es.map (·.o)) i) (·.o) es []
    (fun k e hk => idx_map_of_get? _ es k e (by simpa using hk))
  have hh := indicesFrom_map_read S (fun i => idx (es.map (·.h)) i) (·.h) es []
    (fun k e hk => idx_map_of_get? _ es k e (by simpa using hk))
  have hl := indicesFrom_map_read S (fun i => idx (es.map (·.l)) i) (·.l) es []
    (fun k e hk => idx_map_of_get? _ es k e (by simpa using hk))
  have hc := indicesFrom_map_read S (fun i => idx (es.map (·.c)) i) (·.c) es []
    (fun k e hk => idx_map_of_get? _ es k e (by simpa using hk))
  simp only [List.length_nil] at hx ho hh hl hc
  have hlen : (indicesFrom S 0 (es.map (·.session))).length =
      (es.filter fun e => decide (e.session = S)).length := by
    have := congrArg List.length ho
    simpa using this
  simp only [sessionTraces, DisplayData.ofEntries, hx, ho, hh, hl, hc, hlen, specSessionTrace]
  by_cases hnil : (es.filter fun e => decide (e.session = S)) = []
  · simp [hnil]
  · have hpos : 0 < (es.filter fun e => decide (e.session = S)).length :=
      List.length_pos.mpr hnil
    simp [hnil, hpos]

theorem filter_session_eq_nil_iff (es : List Entry) (S : SessionLabel) :
    (es.filter fun e => decide (e.session = S)) = [] ↔ S ∉ es.map (·.session) := by
  simp only [List.filter_eq_nil_iff, decide_eq_true_eq, List.mem_map, not_exists, not_and]

theorem session_filter_lengths (es : List Entry) :
    (es.filter fun e => decide (e.session = .premarket)).length +
      (es.filter fun e => decide (e.session = .regular)).length +
      (es.filter fun e => decide (e.session = .afterhours)).length = es.length := by
  induction es with
  | nil => rfl
  | cons e es ih =>
    cases hS : e.session <;> simp [List.filter_cons, hS] <;> omega

/-- The number of distinct labels of a tag sequence is the number of the three labels
that occur in it. -/
theorem dedup_length_labels (ss : List SessionLabel) :
    ss.dedup.length =
      ([SessionLabel.premarket, SessionLabel.regular, SessionLabel.afterhours].filter
        fun S => decide (S ∈ ss)).length := by
  apply List.Perm.length_eq
  rw [List.perm_ext_iff_of_nodup (List.nodup_dedup ss)
    (List.Nodup.filter _ (by decide))]
  intro S
  cases S <;> simp

/-- C9: for every non-empty display series with parallel arrays that carries a session-tag
sequence, when `highlightExtended` is true the traces are, in the order premarket, regular,
afterhours, one trace per label that occurs, each holding exactly the rows tagged with its
session in their order; their number is the number of distinct labels; no trace is empty;
and the trace lengths add up to the number of bars. -/
theorem C9_per_session_traces (symbol : Option String) (d : DisplayData) (prefs : DisplayPrefs)
    (ts : List Int) (ss : List SessionLabel)
    (ht : d.t = some ts) (hs : d.session = some ss) (hne : ts ≠ [])
    (hpar : d.o.length = ts.length ∧ d.h.length = ts.length ∧ d.l.length = ts.length ∧
      d.c.length = ts.length ∧ d.v.length = ts.length ∧ ss.length = ts.length)
    (hhl : prefs.highlightExtended = true) :
    createEnhancedTraces symbol d prefs =
        ([SessionLabel.premarket, SessionLabel.regular, SessionLabel.afterhours].filter
          fun S => decide (S ∈ ss)).map (fun S => specSessionTrace d.rows S) ∧
      (createEnhancedTraces symbol d prefs).length = ss.dedup.length ∧
      (∀ tr ∈ createEnhancedTraces symbol d prefs,
        tr.x ≠ [] ∧ tr.«open».length = tr.x.length ∧ tr.high.length = tr.x.length ∧
          tr.low.length = tr.x.length ∧ tr.close.length = tr.x.length) ∧
      ((createEnhancedTraces symbol d prefs).map fun tr => tr.x.length).sum = ts.length := by
  have hd := ofEntries_rows d ts ss ht hs hpar
  have hlen : ¬ ts.length = 0 := fun h => hne (List.length_eq_zero.mp h)
  have hts : d.rows.map (·.t) = ts := by
    have := congrArg DisplayData.t hd
    simpa [DisplayData.ofEntries, ht] using this
  have hss : d.rows.map (·.session) = ss := by
    have := congrArg DisplayData.session hd
    simpa [DisplayData.ofEntries, hs] using this
  have hrl : d.rows.length = ts.length := by rw [← hts, List.length_map]
  have hmem : ∀ S : SessionLabel,
      (d.rows.filter fun e => decide (e.session = S)) = [] ↔ S ∉ ss := by
    intro S
    rw [filter_session_eq_nil_iff, hss]
  have hmain : createEnhancedTraces symbol d prefs =
      ([SessionLabel.premarket, SessionLabel.regular, SessionLabel.afterhours].filter
        fun S => decide (S ∈ ss)).map (fun S => specSessionTrace d.rows S) := by
    have h1 := sessionTraces_ofEntries d.rows .premarket
    have h2 := sessionTraces_ofEntries d.rows .regular
    have h3 := sessionTraces_ofEntries d.rows .afterhours
    rw [hd, hts, hss] at h1 h2 h3
    simp only [createEnhancedTraces, ht, hlen, if_false, hhl, hs, h1, h2, h3, hmem]
    by_cases hp : SessionLabel.premarket ∈ ss <;>
      by_cases hr : SessionLabel.regular ∈ ss <;>
      by_cases ha : SessionLabel.afterhours ∈ ss <;>
      simp [hp, hr, ha, List.filter_cons]
  refine ⟨hmain, ?_, ?_, ?_⟩
  · rw [hmain, List.length_map, dedup_length_labels]
  · intro tr htr
    rw [hmain] at htr
    obtain ⟨S, hS, rfl⟩ := List.mem_map.mp htr
    have hSin : S ∈ ss := by simpa using (List.mem_filter.mp hS).2
    have hnn : (d.rows.filter fun e => decide (e.session = S)) ≠ [] := fun h =>
      (hmem S).mp h hSin
    refine ⟨?_, ?_, ?_, ?_, ?_⟩
    · simpa [specSessionTrace] using hnn
    all_goals simp [specSessionTrace]
  · have hsum := session_filter_lengths d.rows
    have hp := hmem .premarket
    have hr := hmem .regular
    have ha := hmem .afterhours
    rw [hmain, ← hrl, ← hsum]
    by_cases hp' : SessionLabel.premarket ∈ ss <;>
      by_cases hr' : SessionLabel.regular ∈ ss <;>
      by_cases ha' : SessionLabel.afterhours ∈ ss <;>
      simp [hp', hr', ha', List.filter_cons, specSessionTrace, hp.mpr, hr.mpr, ha.mpr,
        Nat.add_assoc]

/-- C9 applied to three bars in two sessions: two traces, premarket then regular. -/
theorem C9_per_session_traces_witness :
    createEnhancedTraces none
          { t := some [32400000, 52200000, 52260000], o := [.num 1, .num 2, .num 3],
            h := [.num 1, .num 2, .num 3], l := [.num 1, .num 2, .num 3],
            c := [.num 1, .num 2, .num 3], v := [.num 1, .num 2, .num 3],
            session := some [.premarket, .regular, .regular] }
          { showPremarket := true, showAfterhours := true, hideClosed := true,
            highlightExtended := true } =
        ([SessionLabel.premarket, SessionLabel.regular, SessionLabel.afterhours].filter
          fun S => decide (S ∈ [SessionLabel.premarket, .regular, .regular])).map
          (fun S => specSessionTrace
            (DisplayData.rows
              { t := some [32400000, 52200000, 52260000], o := [.num 1, .num 2, .num 3],
                h := [.num 1, .num 2, .num 3], l := [.num 1, .num 2, .num 3],
                c := [.num 1, .num 2, .num 3], v := [.num 1, .num 2, .num 3],
                session := some [.premarket, .regular, .regular] }) S) ∧
      (createEnhancedTraces none
          { t := some [32400000, 52200000, 52260000], o := [.num 1, .num 2, .num 3],
            h := [.num 1, .num 2, .num 3], l := [.num 1, .num 2, .num 3],
            c := [.num 1, .num 2, .num 3], v := [.num 1, .num 2, .num 3],
            session := some [.premarket, .regular, .regular] }
          { showPremarket := true, showAfterhours := true, hideClosed := true,
            highlightExtended := true }).length = 2 := by
  have h := C9_per_session_traces none
    { t := some [32400000, 52200000, 52260000], o := [.num 1, .num 2, .num 3],
      h := [.num 1, .num 2, .num 3], l := [.num 1, .num 2, .num 3],
      c := [.num 1, .num 2, .num 3], v := [.num 1, .num 2, .num 3],
      session := some [.premarket, .regular, .regular] }
    { showPremarket := true, showAfterhours := true, hideClosed := true,
      highlightExtended := true }
    [32400000, 52200000, 52260000] [.premarket, .regular, .regular] rfl rfl (by decide)
    ⟨rfl, rfl, rfl, rfl, rfl, rfl⟩ rfl
  exact ⟨h.1, by rw [h.2.1]; decide⟩

/-! ### Controller -/

/-- A successful daily load builds its traces from the raw series, without a session
array, and therefore on the single-trace path. -/
theorem load_daily_displayData (toUpperCase : String → String) (st : ChartState) (page : Page)
    (chartEl : String)
    (data : Payload) (hel : page.chartEl = some chartEl)
    (htf : strOr page.timeframeInput "1d" = "1d") (herr : data.hasError = false) :
    (loadEnhancedChart toUpperCase st page (.body true (some data)) true).2.displayData =
      some (dailyDisplayData data) := by
  simp [loadEnhancedChart, hel, htf, herr, loadAccepted, Outcome.displayData]

/-- What the toggle handler draws always carries a session array: it is never the raw
series of the daily branch. -/
theorem toggleHandler_session (st : ChartState) (page : Page) (r : Render)
    (hr : (toggleHandler st page).2 = some r) : r.displayData.session ≠ none := by
  unfold toggleHandler at hr
  cases hfull : st.data.full with
  | none => simp [hfull] at hr
  | some d =>
    cases hlay : st.layout with
    | none => simp [hfull, hlay] at hr
    | some layout =>
      simp only [hfull, hlay, Option.some.injEq] at hr
      subst hr
      simp [buildDisplayData, DisplayData.ofEntries]

/-- C10 fails on the toggle path: from the initial state, a successful load of one daily
bar draws the raw series (no session array, one trace), and a toggle that follows draws
the assembly of the three `null` buckets instead, an empty series with an empty session
array and no trace. -/
theorem C10_toggle_after_daily_load :
    (loadEnhancedChart String.toUpper initialChartState dailyPage (.body true (some oneBarPayload))
        true).2.displayData =
        some { t := some [1700000000000], o := [.num 100], h := [.num 101], l := [.num 99],
               c := [.num 100], v := [.num 5], session := none } ∧
      ((loadEnhancedChart String.toUpper initialChartState dailyPage (.body true (some oneBarPayload))
        true).2.traces.map List.length) = some 1 ∧
      (loadEnhancedChart String.toUpper initialChartState dailyPage (.body true (some oneBarPayload))
        true).1.timeframe = some "1d" ∧
      ((toggleHandler
          (loadEnhancedChart String.toUpper initialChartState dailyPage (.body true (some oneBarPayload))
            true).1 dailyPage).2.map (·.displayData)) =
        some { t := some [], o := [], h := [], l := [], c := [], v := [],
               session := some [] } ∧
      ((toggleHandler
          (loadEnhancedChart String.toUpper initialChartState dailyPage (.body true (some oneBarPayload))
            true).1 dailyPage).2.map (·.traces)) = some [] := by
  refine ⟨?_, ?_, ?_, ?_, ?_⟩ <;> rfl

/-- C11, as stated, fails: from the initial state, a load whose fetch is rejected ends
in the `catch` block with `timeframe` set to `'1d'` and `display.showPremarket` set to
false, where they were `null` and true before. -/
theorem C11_counterexample :
    (loadEnhancedChart String.toUpper initialChartState dailyPage .rejected true).2 = .failed ∧
      (loadEnhancedChart String.toUpper initialChartState dailyPage .rejected true).1.timeframe = some "1d" ∧
      initialChartState.timeframe = none ∧
      (loadEnhancedChart String.toUpper initialChartState dailyPage .rejected true).1.display.showPremarket
        = false ∧
      initialChartState.display.showPremarket = true := by
  refine ⟨?_, ?_, ?_, ?_, ?_⟩ <;> rfl

/-- C11, amended: a load that fails leaves `layout` and `el` as they were; `symbol`,
`timeframe` and `display` hold the values read from the page for this load; after a
failing fetch outcome (rejected, unparsable, non-success status, error field) `data` is
as it was, and after any other failure `data.full` holds the body just received. -/
theorem C11_failed_load_state (toUpperCase : String → String) (st : ChartState) (page : Page)
    (chartEl : String)
    (fetch : FetchOutcome) (plotOk : Bool) (hel : page.chartEl = some chartEl)
    (hfail : (loadEnhancedChart toUpperCase st page fetch plotOk).2 = .failed) :
    (loadEnhancedChart toUpperCase st page fetch plotOk).1.layout = st.layout ∧
      (loadEnhancedChart toUpperCase st page fetch plotOk).1.el = st.el ∧
      (loadEnhancedChart toUpperCase st page fetch plotOk).1.symbol =
        some (toUpperCase (strOr page.symbolInput "AAPL")) ∧
      (loadEnhancedChart toUpperCase st page fetch plotOk).1.timeframe =
        some (strOr page.timeframeInput "1d") ∧
      (loadEnhancedChart toUpperCase st page fetch plotOk).1.display = loadDisplay page ∧
      (fetch.fails = true → (loadEnhancedChart toUpperCase st page fetch plotOk).1.data = st.data) ∧
      (∀ (ok : Bool) (data : Option Payload), fetch = .body ok data → fetch.fails = false →
        (loadEnhancedChart toUpperCase st page fetch plotOk).1.data.full = data) := by
  cases fetch with
  | rejected =>
    simp [loadEnhancedChart, hel, loadDisplay, FetchOutcome.fails]
  | unparsable =>
    simp [loadEnhancedChart, hel, loadDisplay, FetchOutcome.fails]
  | body ok data =>
    cases ok with
    | false => simp [loadEnhancedChart, hel, loadDisplay, FetchOutcome.fails]
    | true =>
      have hrest : ∀ (hok : (match data with
                             | some d => d.hasError
                             | none => false) = false),
          (loadAccepted toUpperCase
              { st with symbol := some (toUpperCase (strOr page.symbolInput "AAPL")),
                        timeframe := some (strOr page.timeframeInput "1d"),
                        display := loadDisplay page }
              chartEl (toUpperCase (strOr page.symbolInput "AAPL")) (strOr page.timeframeInput "1d")
              data plotOk).2 = .failed →
          (loadAccepted toUpperCase
              { st with symbol := some (toUpperCase (strOr page.symbolInput "AAPL")),
                        timeframe := some (strOr page.timeframeInput "1d"),
                        display := loadDisplay page }
              chartEl (toUpperCase (strOr page.symbolInput "AAPL")) (strOr page.timeframeInput "1d")
              data plotOk).1.layout = st.layout ∧
          (loadAccepted toUpperCase
              { st with symbol := some (toUpperCase (strOr page.symbolInput "AAPL")),
                        timeframe := some (strOr page.timeframeInput "1d"),
                        display := loadDisplay page }
              chartEl (toUpperCase (strOr page.symbolInput "AAPL")) (strOr page.timeframeInput "1d")
              data plotOk).1.el = st.el ∧
          (loadAccepted toUpperCase
              { st with symbol := some (toUpperCase (strOr page.symbolInput "AAPL")),
                        timeframe := some (strOr page.timeframeInput "1d"),
                        display := loadDisplay page }
              chartEl (toUpperCase (strOr page.symbolInput "AAPL")) (strOr page.timeframeInput "1d")
              data plotOk).1.symbol = some (toUpperCase (strOr page.symbolInput "AAPL")) ∧
          (loadAccepted toUpperCase
              { st with symbol := some (toUpperCase (strOr page.symbolInput "AAPL")),
                        timeframe := some (strOr page.timeframeInput "1d"),
                        display := loadDisplay page }
              chartEl (toUpperCase (strOr page.symbolInput "AAPL")) (strOr page.timeframeInput "1d")
              data plotOk).1.timeframe = some (strOr page.timeframeInput "1d") ∧
          (loadAccepted toUpperCase
              { st with symbol := some (toUpperCase (strOr page.symbolInput "AAPL")),
                        timeframe := some (strOr page.timeframeInput "1d"),
                        display := loadDisplay page }
              chartEl (toUpperCase (strOr page.symbolInput "AAPL")) (strOr page.timeframeInput "1d")
              data plotOk).1.display = loadDisplay page ∧
          (loadAccepted toUpperCase
              { st with symbol := some (toUpperCase (strOr page.symbolInput "AAPL")),
                        timeframe := some (strOr page.timeframeInput "1d"),
                        display := loadDisplay page }
              chartEl (toUpperCase (strOr page.symbolInput "AAPL")) (strOr page.timeframeInput "1d")
              data plotOk).1.data.full = data := by
        intro _ hf
        unfold loadAccepted at hf ⊢
        by_cases htf : strOr page.timeframeInput "1d" = "1d"
        · simp only [htf, if_true] at hf ⊢
          cases data with
          | none => simp
          | some d =>
            cases plotOk with
            | true => simp at hf
            | false => simp
        · simp only [htf, if_false] at hf ⊢
          cases plotOk with
          | true => simp at hf
          | false => simp
      cases data with
      | none =>
        have h := hrest rfl (by simpa [loadEnhancedChart, hel, loadDisplay] using hfail)
        simp only [loadEnhancedChart, hel, Bool.not_true, Bool.false_eq_true, if_false,
          FetchOutcome.fails]
        exact ⟨h.1, h.2.1, h.2.2.1, h.2.2.2.1, h.2.2.2.2.1, by simp,
          fun ok data hb _ => by cases hb; exact h.2.2.2.2.2⟩
      | some d =>
        cases herr : d.hasError with
        | true => simp [loadEnhancedChart, hel, loadDisplay, FetchOutcome.fails, herr]
        | false =>
          have h := hrest herr
            (by simpa [loadEnhancedChart, hel, loadDisplay, herr] using hfail)
          simp only [loadEnhancedChart, hel, Bool.not_true, Bool.false_eq_true, if_false,
            FetchOutcome.fails, herr]
          exact ⟨h.1, h.2.1, h.2.2.1, h.2.2.2.1, h.2.2.2.2.1, by simp,
            fun ok data hb _ => by cases hb; exact h.2.2.2.2.2⟩

/-- C11 applied to a load from the initial state whose fetch is rejected. -/
theorem C11_failed_load_state_witness :
    (loadEnhancedChart String.toUpper initialChartState dailyPage .rejected true).1.layout =
        initialChartState.layout ∧
      (loadEnhancedChart String.toUpper initialChartState dailyPage .rejected true).1.el =
        initialChartState.el ∧
      (FetchOutcome.rejected.fails = true →
        (loadEnhancedChart String.toUpper initialChartState dailyPage .rejected true).1.data =
          initialChartState.data) :=
  have h := C11_failed_load_state String.toUpper initialChartState dailyPage "chart" .rejected true rfl rfl
  ⟨h.1, h.2.1, h.2.2.2.2.2.1⟩

/-! ### Separation followed by assembly -/

theorem hasLabel_iff_classify (S : SessionLabel) (timestamp : Int) :
    hasLabel S timestamp = true ↔ classify timestamp = some S := by
  have hx := session_tests_exclusive (etTotalMinutes timestamp)
  unfold classify
  cases S <;>
    cases hp : isPremarket (etTotalMinutes timestamp) <;>
    cases hr : isRegular (etTotalMinutes timestamp) <;>
    cases ha : isAfterhours (etTotalMinutes timestamp) <;>
    simp_all [hasLabel]

theorem barsFrom_map_t (data : RawSeries) (ts : List Int) :
    ∀ (i : Nat), (barsFrom data i ts).map (·.t) = ts := by
  induction ts with
  | nil => intro i; rfl
  | cons t ts ih => intro i; simp [barsFrom, barAt, ih]

theorem bucketEntries_ofBars (S : SessionLabel) (bars : List Bar) :
    bucketEntries (some (Series.ofBars bars)) S = bars.map (Bar.tagged S) :=
  entriesFrom_ofBars S bars []

theorem filter_tagged (bars : List Bar) (S' S : SessionLabel) :
    (bars.map (Bar.tagged S')).filter (fun e => decide (e.session = S)) =
      if S' = S then bars.map (Bar.tagged S') else [] := by
  by_cases h : S' = S
  · rw [if_pos h, List.filter_eq_self]
    intro e he
    obtain ⟨b, _, rfl⟩ := List.mem_map.mp he
    simpa [Bar.tagged] using h
  · rw [if_neg h, List.filter_eq_nil_iff]
    intro e he
    obtain ⟨b, _, rfl⟩ := List.mem_map.mp he
    simpa [Bar.tagged] using h

theorem acceptedEntry_eq_some (bar : Bar) (e : Entry) (h : acceptedEntry bar = some e) :
    e = bar.tagged e.session ∧ classify bar.t = some e.session ∧
      accepted e.session bar = true := by
  unfold acceptedEntry at h
  cases hc : classify bar.t with
  | none => simp [hc] at h
  | some S =>
    simp only [hc] at h
    by_cases ha : accepted S bar = true
    · simp only [ha, if_true, Option.some.injEq] at h
      subst h
      exact ⟨rfl, rfl, ha⟩
    · simp [ha] at h

/-- The accepted entries of session `S` are the bars accepted for `S`, tagged `S`. -/
theorem filter_acceptedEntry (S : SessionLabel) (bars : List Bar) :
    (bars.filterMap acceptedEntry).filter (fun e => decide (e.session = S)) =
      (bars.filter (accepted S)).map (Bar.tagged S) := by
  induction bars with
  | nil => rfl
  | cons bar bars ih =>
    have hlab : accepted S bar = true → classify bar.t = some S := by
      intro ha
      simp only [accepted, Bool.and_eq_true] at ha
      exact (hasLabel_iff_classify S bar.t).mp ha.1.1
    cases hc : classify bar.t with
    | none =>
      have hS : accepted S bar = false := by
        cases hacc : accepted S bar with
        | false => rfl
        | true => simp [hlab hacc] at hc
      simp [List.filterMap_cons, acceptedEntry, hc, List.filter_cons, hS, ih]
    | some S' =>
      by_cases hSS : S' = S
      · subst hSS
        cases hacc : accepted S' bar with
        | false => simp [List.filterMap_cons, acceptedEntry, hc, List.filter_cons, hacc, ih]
        | true =>
          simp [List.filterMap_cons, acceptedEntry, hc, List.filter_cons, hacc, ih, Bar.tagged]
      · have hS : accepted S bar = false := by
          cases hacc : accepted S bar with
          | false => rfl
          | true =>
            have := hlab hacc
            rw [hc] at this
            exact absurd (Option.some.inj this) hSS
        cases hacc : accepted S' bar with
        | false => simp [List.filterMap_cons, acceptedEntry, hc, List.filter_cons, hacc, hS, ih]
        | true =>
          simp [List.filterMap_cons, acceptedEntry, hc, List.filter_cons, hacc, hS, ih,
            Bar.tagged, hSS]

/-- Two lists sorted by timestamp that hold the same entries of each session, in the
same order, are equal when the session of an entry is determined by its timestamp. -/
theorem eq_of_sorted_of_filter_eq (g : Int → Option SessionLabel) (X : List Entry) :
    ∀ (Y : List Entry), X.Sorted Entry.le → Y.Sorted Entry.le →
      (∀ e ∈ Y, g e.t = some e.session) →
      (∀ S : SessionLabel, X.filter (fun e => decide (e.session = S)) =
        Y.filter (fun e => decide (e.session = S))) → X = Y := by
  induction X with
  | nil =>
    intro Y _ _ _ hf
    cases Y with
    | nil => rfl
    | cons y Y =>
      have := hf y.session
      simp [List.filter_cons] at this
  | cons x X ih =>
    intro Y hX hY hg hf
    cases Y with
    | nil =>
      have := hf x.session
      simp [List.filter_cons] at this
    | cons y Y =>
      have hxy : x = y := by
        by_cases hc : x.session = y.session
        · have := hf x.session
          simp only [List.filter_cons, decide_True, if_true, hc] at this
          exact (List.cons.inj this).1
        · have hxY : x ∈ y :: Y := by
            have hmem : x ∈ (x :: X).filter (fun e => decide (e.session = x.session)) := by
              simp [List.filter_cons]
            rw [hf x.session] at hmem
            exact (List.mem_filter.mp hmem).1
          have hyX : y ∈ x :: X := by
            have hmem : y ∈ (y :: Y).filter (fun e => decide (e.session = y.session)) := by
              simp [List.filter_cons]
            rw [← hf y.session] at hmem
            exact (List.mem_filter.mp hmem).1
          have hne : x ≠ y := fun h => hc (by rw [h])
          have hxY' : x ∈ Y := by
            rcases List.mem_cons.mp hxY with h | h
            · exact absurd h hne
            · exact h
          have hyX' : y ∈ X := by
            rcases List.mem_cons.mp hyX with h | h
            · exact absurd h.symm hne
            · exact h
          have h1 : y.t ≤ x.t := List.rel_of_sorted_cons hY x hxY'
          have h2 : x.t ≤ y.t := List.rel_of_sorted_cons hX y hyX'
          have ht : x.t = y.t := Int.le_antisymm h2 h1
          have gx := hg x hxY
          have gy := hg y (List.mem_cons_self y Y)
          rw [ht, gy] at gx
          exact absurd (Option.some.inj gx).symm hc
      subst hxy
      congr 1
      apply ih Y hX.of_cons hY.of_cons (fun e he => hg e (List.mem_cons_of_mem _ he))
      intro S
      have := hf S
      by_cases hS : x.session = S
      · simp only [List.filter_cons, hS, decide_True, if_true] at this
        exact (List.cons.inj this).2
      · simpa [List.filter_cons, hS] using this

/-- The unsorted array of `buildDisplayData` after a separation, both extended sessions
shown: the accepted premarket bars, then the regular ones, then the afterhours ones. -/
theorem allData_withSessions (st : ChartState) (data : RawSeries) (ts : List Int)
    (ht : data.t = some ts) :
    allData (st.withSessions (separateSessionData (some data))) =
      ((inputBars data ts).filter (accepted .premarket)).map (Bar.tagged .premarket) ++
        ((inputBars data ts).filter (accepted .regular)).map (Bar.tagged .regular) ++
        ((inputBars data ts).filter (accepted .afterhours)).map (Bar.tagged .afterhours) := by
  simp only [allData, ChartState.withSessions, separateSessionData, ht, separateLoop_eq,
    Series.empty_append, if_true, bucketEntries_ofBars, inputBars]

theorem tagged_filter_sorted (S : SessionLabel) (bars : List Bar)
    (hs : (bars.map (·.t)).Sorted (· ≤ ·)) :
    ((bars.filter (accepted S)).map (Bar.tagged S)).Sorted Entry.le := by
  have hb : bars.Pairwise (fun a b => a.t ≤ b.t) := List.pairwise_map.mp hs
  have hf : (bars.filter (accepted S)).Pairwise (fun a b => a.t ≤ b.t) :=
    hb.sublist (List.filter_sublist bars)
  exact List.pairwise_map.mpr hf

theorem acceptedEntries_sorted (bars : List Bar) (hs : (bars.map (·.t)).Sorted (· ≤ ·)) :
    (bars.filterMap acceptedEntry).Sorted Entry.le := by
  have hb : bars.Pairwise (fun a b => a.t ≤ b.t) := List.pairwise_map.mp hs
  refine List.Pairwise.filterMap acceptedEntry ?_ hb
  intro a a' haa e he e' he'
  have h1 := (acceptedEntry_eq_some a e he).1
  have h2 := (acceptedEntry_eq_some a' e' he').1
  rw [h1, h2]
  exact haa

theorem acceptedEntries_label (bars : List Bar) :
    ∀ e ∈ bars.filterMap acceptedEntry, classify e.t = some e.session := by
  intro e he
  obtain ⟨bar, _, hbar⟩ := List.mem_filterMap.mp he
  have h := acceptedEntry_eq_some bar e hbar
  have ht : e.t = bar.t := by rw [h.1]; rfl
  rw [ht]
  exact h.2.1

/-- C14: for every raw series whose timestamps are in non-decreasing order,
`buildDisplayData` on the buckets of `separateSessionData`, with `showPremarket` and
`showAfterhours` true, returns exactly the accepted bars of the raw series in their
input order, each tagged with the label of its timestamp, bar `i` being the cells at
index `i` with the volume taken as 0 when absent. Of seven bars in time order at 20:00
(volume 8), 04:05 (volume 9), 04:06 (volume `null`), 09:31 (volume 0), 09:31 again
(volume 5), 09:32 (high `NaN`) and 17:00 (volume 7), the result holds the second tagged
premarket, the fourth and the fifth tagged regular in that order, and the seventh tagged
afterhours, each with its own cells. -/
theorem C14_separate_then_assemble (st : ChartState) (ts : List Int) (o h l c : List JsVal)
    (v : Option (List JsVal)) (hsorted : ts.Sorted (· ≤ ·)) :
    buildDisplayData
        (st.withSessions
          (separateSessionData (some { t := some ts, o := o, h := h, l := l, c := c, v := v })))
        = DisplayData.ofEntries (acceptedEntries ts o h l c v) ∧
      (buildDisplayData
        (st.withSessions
          (separateSessionData
            (some { t := some ts, o := o, h := h, l := l, c := c, v := v })))).rows
        = acceptedEntries ts o h l c v ∧
      (∀ e ∈ acceptedEntries ts o h l c v,
        ∃ i, i < ts.length ∧ e = (specBarAt ts o h l c v i).tagged e.session ∧
          hasLabel e.session e.t = true ∧ accepted e.session (specBarAt ts o h l c v i) = true) ∧
      (buildDisplayData
        (initialChartState.withSessions
          (separateSessionData
            (some { t := some [3600000, 32700000, 32760000, 52260000, 52260000, 52320000,
                               79200000],
                    o := [.num 60, .num 10, .num 20, .num 30, .num 40, .num 70, .num 50],
                    h := [.num 62, .num 12, .num 22, .num 32, .num 42, .nan, .num 52],
                    l := [.num 59, .num 9, .num 19, .num 29, .num 39, .num 69, .num 49],
                    c := [.num 61, .num 11, .num 21, .num 31, .num 41, .num 71, .num 51],
                    v := some [.num 8, .num 9, .null, .num 0, .num 5, .num 6,
                               .num 7] })))).rows =
        [{ t := 32700000, o := .num 10, h := .num 12, l := .num 9, c := .num 11, v := .num 9,
           session := .premarket },
         { t := 52260000, o := .num 30, h := .num 32, l := .num 29, c := .num 31, v := .num 0,
           session := .regular },
         { t := 52260000, o := .num 40, h := .num 42, l := .num 39, c := .num 41, v := .num 5,
           session := .regular },
         { t := 79200000, o := .num 50, h := .num 52, l := .num 49, c := .num 51, v := .num 7,
           session := .afterhours }] := by
  have hbars : ((inputBars { t := some ts, o := o, h := h, l := l, c := c, v := v } ts).map
      (·.t)).Sorted (· ≤ ·) := by
    rw [inputBars, barsFrom_map_t]
    exact hsorted
  have hall := allData_withSessions st
    { t := some ts, o := o, h := h, l := l, c := c, v := v } ts rfl
  have hmain : sortByTimestamp
      (allData (st.withSessions
        (separateSessionData (some { t := some ts, o := o, h := h, l := l, c := c, v := v }))))
      = acceptedEntries ts o h l c v := by
    rw [acceptedEntries, ← inputBars_eq_spec]
    apply eq_of_sorted_of_filter_eq classify
    · exact List.sorted_insertionSort Entry.le _
    · exact acceptedEntries_sorted _ hbars
    · exact acceptedEntries_label _
    · intro S
      rw [sortByTimestamp_filter, hall, filter_acceptedEntry]
      simp only [List.filter_append, filter_tagged]
      cases S <;>
        simp only [if_true, if_false, List.nil_append, List.append_nil, reduceCtorEq] <;>
        exact (tagged_filter_sorted _ _ hbars).insertionSort_eq
  refine ⟨?_, ?_, ?_, ?_⟩
  · rw [buildDisplayData, hmain]
  · rw [buildDisplayData, hmain, rows_ofEntries]
  · intro e he
    obtain ⟨bar, hbar, hacc⟩ := List.mem_filterMap.mp he
    obtain ⟨i, hi, rfl⟩ := List.mem_map.mp hbar
    have h3 := acceptedEntry_eq_some _ e hacc
    refine ⟨i, List.mem_range.mp hi, h3.1, ?_, h3.2.2⟩
    have ht : e.t = (specBarAt ts o h l c v i).t := by rw [h3.1]; rfl
    rw [ht]
    exact (hasLabel_iff_classify _ _).mpr h3.2.1
  · decide

/-- C14 applied to four bars in time order, at 04:00, 09:30, 09:30 again and 16:00: all
four are kept, in input order, the two bars of equal timestamp included, each with its
own cells and the tag of its session. -/
theorem C14_separate_then_assemble_witness :
    (buildDisplayData
        (initialChartState.withSessions
          (separateSessionData
            (some { t := some [32400000, 52200000, 52200000, 75600000],
                    o := [.num 1, .num 2, .num 3, .num 4], h := [.num 5, .num 6, .num 7, .num 8],
                    l := [.num 0, .num 1, .num 2, .num 3], c := [.num 4, .num 5, .num 6, .num 7],
                    v := some [.num 1, .num 0, .num 3, .num 2] })))).rows
      = [{ t := 32400000, o := .num 1, h := .num 5, l := .num 0, c := .num 4, v := .num 1,
           session := .premarket },
         { t := 52200000, o := .num 2, h := .num 6, l := .num 1, c := .num 5, v := .num 0,
           session := .regular },
         { t := 52200000, o := .num 3, h := .num 7, l := .num 2, c := .num 6, v := .num 3,
           session := .regular },
         { t := 75600000, o := .num 4, h := .num 8, l := .num 3, c := .num 7, v := .num 2,
           session := .afterhours }] :=
  (C14_separate_then_assemble initialChartState [32400000, 52200000, 52200000, 75600000]
    [.num 1, .num 2, .num 3, .num 4] [.num 5, .num 6, .num 7, .num 8]
    [.num 0, .num 1, .num 2, .num 3] [.num 4, .num 5, .num 6, .num 7]
    (some [.num 1, .num 0, .num 3, .num 2]) (by decide)).2.1.trans (by decide)

/-! ### Support and resistance overlay -/

theorem log2_eq_of (n k : Nat) (h1 : 2 ^ k ≤ n) (h2 : n < 2 ^ (k + 1)) : n.log2 = k := by
  have hn : n ≠ 0 := by
    intro h
    rw [h] at h1
    exact absurd h1 (Nat.not_le.mpr (Nat.two_pow_pos k))
  have hlt : n.log2 < k + 1 := (Nat.log2_lt hn).mpr h2
  have hge : ¬ n.log2 < k := fun h => absurd ((Nat.log2_lt hn).mp h) (Nat.not_lt.mpr h1)
  omega

theorem roundHalfEven_one (m : Nat) : roundHalfEven m 1 = m := by
  simp [roundHalfEven, Nat.mod_one]

/-- An integer below `2 ^ 53` in magnitude is a double: rounding leaves it as it is. -/
theorem roundToDouble_intCast (a : ℤ) (ha : a.natAbs < 2 ^ 53) : roundToDouble (a : ℚ) = a := by
  have hmag : roundMagnitude a.natAbs 1 = (a.natAbs : ℚ) := by
    unfold roundMagnitude
    by_cases h0 : a.natAbs = 0
    · simp [h0]
    · rw [if_neg h0]
      have hL : a.natAbs.log2 < 53 := (Nat.log2_lt h0).mpr ha
      have hle : 2 ^ a.natAbs.log2 ≤ a.natAbs := Nat.log2_self_le h0
      have h1 : Nat.log2 1 = 0 := by simp [Nat.log2]
      have hE : binaryExponent a.natAbs 1 = (a.natAbs.log2 : Int) := by
        simp [binaryExponent, h1, hle]
      have he : max (binaryExponent a.natAbs 1 - 52) (-1074) = (a.natAbs.log2 : Int) - 52 := by
        rw [hE]; omega
      have hup : ((a.natAbs.log2 : Int) - 52).toNat = 0 := by omega
      simp only [he, hup, pow_zero, Nat.mul_one, roundHalfEven_one, mul_one]
      have hpos : (0 : ℚ) < 2 ^ (-((a.natAbs.log2 : Int) - 52)).toNat := by positivity
      rw [Nat.cast_mul, Nat.cast_pow, Nat.cast_ofNat, mul_div_assoc, div_self hpos.ne', mul_one]
      apply min_eq_left
      have : (a.natAbs : ℚ) < 2 ^ 53 := by exact_mod_cast ha
      have h2 : (2 : ℚ) ^ 53 ≤ 2 ^ 1024 := by norm_num
      linarith
  unfold roundToDouble
  rw [Rat.num_intCast, Rat.den_intCast, hmag]
  by_cases hneg : (a : ℚ) < 0
  · rw [if_pos hneg]
    have : a < 0 := by exact_mod_cast hneg
    rw [← Int.cast_natCast, Int.ofNat_natAbs_of_nonpos this.le]
    simp
  · rw [if_neg hneg]
    have : 0 ≤ a := by exact_mod_cast not_lt.mp hneg
    rw [← Int.cast_natCast, Int.natAbs_of_nonneg this]

/-- The subtraction of two integers whose difference is below `2 ^ 53` in magnitude is
exact. -/
theorem jsSub_intCast (a b : ℤ) (h : (a - b).natAbs < 2 ^ 53) :
    jsSub (a : ℚ) (b : ℚ) = (a : ℚ) - (b : ℚ) := by
  have := roundToDouble_intCast (a - b) h
  rw [Int.cast_sub] at this
  exact this

theorem roundMagnitude_eval (n d : Nat) (E : Int) (up down m : Nat) (hn : n ≠ 0)
    (hE : binaryExponent n d = E) (hlow : -1074 ≤ E - 52)
    (hup : (E - 52).toNat = up) (hdown : (-(E - 52)).toNat = down)
    (hm : roundHalfEven (n * 2 ^ down) (d * 2 ^ up) = m)
    (hsmall : (m : ℚ) * 2 ^ up / 2 ^ down ≤ 2 ^ 1024) :
    roundMagnitude n d = (m : ℚ) * 2 ^ up / 2 ^ down := by
  unfold roundMagnitude
  rw [if_neg hn]
  simp only [hE, max_eq_left hlow, hup, hdown, hm]
  exact min_eq_left hsmall

theorem num_den_of_div (n b : Nat) (hb : 0 < b) (hco : Nat.Coprime n b) :
    (((n : ℚ) / (b : ℚ)).num = n) ∧ (((n : ℚ) / (b : ℚ)).den = b) := by
  have hb' : (0 : ℤ) < (b : ℤ) := by exact_mod_cast hb
  have h1 := Rat.num_div_eq_of_coprime (a := (n : ℤ)) (b := (b : ℤ)) hb' (by simpa using hco)
  have h2 := Rat.den_div_eq_of_coprime (a := (n : ℤ)) (b := (b : ℤ)) hb' (by simpa using hco)
  have h3 : (((n : ℤ) : ℚ) / ((b : ℤ) : ℚ)) = (n : ℚ) / (b : ℚ) := by simp
  rw [h3] at h1 h2
  exact ⟨h1, by exact_mod_cast h2⟩

theorem roundToDouble_eval_pos (x : ℚ) (n b : Nat) (hx : x = (n : ℚ) / (b : ℚ)) (hb : 0 < b)
    (hco : Nat.Coprime n b) : roundToDouble x = roundMagnitude n b := by
  obtain ⟨h1, h2⟩ := num_den_of_div n b hb hco
  have hnn : ¬ x < 0 := by
    rw [hx]
    exact not_lt.mpr (by positivity)
  rw [roundToDouble, if_neg hnn, hx, h1, h2, Int.natAbs_ofNat]

theorem roundToDouble_eval_neg (x : ℚ) (n b : Nat) (hx : x = -((n : ℚ) / (b : ℚ))) (hb : 0 < b)
    (hn : 0 < n) (hco : Nat.Coprime n b) : roundToDouble x = -roundMagnitude n b := by
  obtain ⟨h1, h2⟩ := num_den_of_div n b hb hco
  have hneg : x < 0 := by
    rw [hx]
    have hb' : (0 : ℚ) < b := by exact_mod_cast hb
    have hn' : (0 : ℚ) < n := by exact_mod_cast hn
    exact neg_neg_of_pos (div_pos hn' hb')
  rw [roundToDouble, if_pos hneg, hx, Rat.num_neg_eq_neg_num, Rat.neg_den, h1, h2, Int.natAbs_neg,
    Int.natAbs_ofNat]

/-- The double nearest 199.9, minus 100, is exact. -/
theorem jsSub_d199_9 : jsSub d199_9 100 = 3514918771674317 / 35184372088832 := by
  have l1 : Nat.log2 3514918771674317 = 51 := log2_eq_of _ _ (by norm_num) (by norm_num)
  have l2 : Nat.log2 35184372088832 = 45 := log2_eq_of _ _ (by norm_num) (by norm_num)
  have hE : binaryExponent 3514918771674317 35184372088832 = 6 := by
    simp [binaryExponent, l1, l2]
  rw [jsSub, d199_9,
    roundToDouble_eval_pos _ 3514918771674317 35184372088832 (by norm_num) (by norm_num)
      (by norm_num),
    roundMagnitude_eval _ _ 6 0 46 7029837543348634 (by norm_num) hE (by norm_num) (by decide)
      (by decide) (by norm_num [roundHalfEven]) (by norm_num)]
  norm_num

/-- The double nearest 0.1, minus 100, is rounded to the opposite of the same double. -/
theorem jsSub_d0_1 : jsSub d0_1 100 = -(3514918771674317 / 35184372088832) := by
  have l1 : Nat.log2 3599276822194500403 = 61 := log2_eq_of _ _ (by norm_num) (by norm_num)
  have l2 : Nat.log2 36028797018963968 = 55 := log2_eq_of _ _ (by norm_num) (by norm_num)
  have hE : binaryExponent 3599276822194500403 36028797018963968 = 6 := by
    simp [binaryExponent, l1, l2]
  rw [jsSub, d0_1,
    roundToDouble_eval_neg _ 3599276822194500403 36028797018963968 (by norm_num) (by norm_num)
      (by norm_num) (by norm_num),
    roundMagnitude_eval _ _ 6 0 46 7029837543348634 (by norm_num) hE (by norm_num) (by decide)
      (by decide) (by norm_num [roundHalfEven]) (by norm_num)]
  norm_num

/-- The levels sorted by distance, before the cut to `MAX_LEVELS`. -/
theorem sortedLevels_perm (p : ℚ) (prices : List ℚ) :
    ((prices.map fun price =>
        ({ price := price, dist := |jsSub price p| } : Level)).insertionSort Level.le).Perm
      (prices.map fun price => ({ price := price, dist := |jsSub price p| } : Level)) :=
  List.perm_insertionSort Level.le _

theorem sortedLevels_dist (p : ℚ) (prices : List ℚ) :
    ∀ lv ∈ (prices.map fun price =>
        ({ price := price, dist := |jsSub price p| } : Level)).insertionSort Level.le,
      lv.dist = |jsSub lv.price p| ∧ lv.price ∈ prices := by
  intro lv hlv
  have hmem := (sortedLevels_perm p prices).mem_iff.mp hlv
  obtain ⟨q, hq, rfl⟩ := List.mem_map.mp hmem
  exact ⟨rfl, hq⟩

theorem sortedLevels_prices (p : ℚ) (prices : List ℚ) :
    (((prices.map fun price =>
        ({ price := price, dist := |jsSub price p| } : Level)).insertionSort Level.le).map
      (·.price)).Perm prices := by
  have h := (sortedLevels_perm p prices).map (·.price)
  simpa [List.map_map, Function.comp_def] using h

/-- The kept levels are in non-decreasing order of any key that agrees with the computed
distance on the returned prices, and every price that is not kept has a key at least that
of every kept one. -/
theorem selectLevels_order (p : ℚ) (prices : List ℚ) (key : ℚ → ℚ)
    (hkey : ∀ q ∈ prices, |jsSub q p| = key q) :
    ((selectLevels p prices).map fun lv => key lv.price).Sorted (· ≤ ·) ∧
      ∃ dropped : List ℚ,
        prices.Perm ((selectLevels p prices).map (·.price) ++ dropped) ∧
        ∀ q ∈ dropped, ∀ lv ∈ selectLevels p prices, key lv.price ≤ key q := by
  have hsorted : ((prices.map fun price =>
      ({ price := price, dist := |jsSub price p| } : Level)).insertionSort Level.le).Sorted
      Level.le := List.sorted_insertionSort Level.le _
  have hdist : ∀ lv ∈ (prices.map fun price =>
      ({ price := price, dist := |jsSub price p| } : Level)).insertionSort Level.le,
      lv.dist = key lv.price := by
    intro lv hlv
    obtain ⟨h1, h2⟩ := sortedLevels_dist p prices lv hlv
    rw [h1, hkey _ h2]
  have hprices := sortedLevels_prices p prices
  constructor
  · unfold selectLevels
    have htake := List.Pairwise.sublist (List.take_sublist MAX_LEVELS _) hsorted
    refine List.pairwise_map.mpr (htake.imp_of_mem ?_)
    intro a b ha hb hab
    rw [← hdist a (List.mem_of_mem_take ha), ← hdist b (List.mem_of_mem_take hb)]
    exact hab
  · refine ⟨(((prices.map fun price =>
        ({ price := price, dist := |jsSub price p| } : Level)).insertionSort Level.le).drop
        MAX_LEVELS).map (·.price), ?_, ?_⟩
    · unfold selectLevels
      rw [← List.map_append, List.take_append_drop]
      exact hprices.symm
    · intro q hq lv hlv
      obtain ⟨lq, hlq, rfl⟩ := List.mem_map.mp hq
      have hrel : Level.le lv lq := hsorted.rel_of_mem_take_of_mem_drop hlv hlq
      rw [← hdist lv (List.mem_of_mem_take hlv), ← hdist lq (List.mem_of_mem_drop hlq)]
      exact hrel

theorem idx_getLast (c : List JsVal) (x : JsVal) (h : c.getLast? = some x) :
    idx c (c.length - 1) = x := by
  rw [List.getLast?_eq_getElem?] at h
  simp [idx, List.getD_eq_getElem?_getD, h]

/-- On a rendered chart with at least thirty bars whose latest close is the number `p`, a
successful detector answer with a non-empty level list replaces the automatic shapes and
labels by those of the kept levels, in the order of the selection, followed by the pivot
circles. -/
theorem applyAutoSupportResistance_levels (st : ChartState) (displayData : DisplayData)
    (el : String) (layout : Layout) (ts : List Int) (p : ℚ) (payload : SrPayload)
    (prices : List ℚ) (hel : st.el = some el) (hlay : st.layout = some layout)
    (ht : displayData.t = some ts) (h30 : 30 ≤ ts.length)
    (hlast : displayData.c.getLast? = some (.num p)) (herr : payload.hasError = false)
    (hlev : payload.levels = some prices) (hne : prices ≠ []) :
    applyAutoSupportResistance st displayData (.body true payload) =
      { st with layout := some { layout with
          shapes := some (userShapes layout.shapes ++
            (((selectLevels p prices).map (·.price)).map
              (levelShape (.num p) ts.head? ts.getLast?) ++ pivotShapes payload)),
          annotations := some (userAnnotations layout.annotations ++
            levelLabelsFrom (.num p) 0 ((selectLevels p prices).map (·.price))) } } := by
  have hlt : ¬ ts.length < 30 := Nat.not_lt.mpr h30
  have hc : displayData.c ≠ [] := by
    intro h
    rw [h] at hlast
    simp at hlast
  have hcl : ¬ displayData.c.length = 0 := fun h => hc (List.length_eq_zero.mp h)
  have hpl : ¬ prices.length = 0 := fun h => hne (List.length_eq_zero.mp h)
  simp [applyAutoSupportResistance, ht, hlt, hcl, herr, hlev, hpl, hel, hlay,
    idx_getLast _ _ hlast, keptPrices]

/-- The selection at `p = 100` among `[95, 105, 150, 80, 110]`. -/
theorem selectLevels_example :
    (selectLevels 100 [95, 105, 150, 80, 110]).map (·.price) = [95, 105, 110, 80] := by
  have e1 : |jsSub (95 : ℚ) 100| = 5 := by
    have := jsSub_intCast 95 100 (by decide)
    norm_num at this
    rw [this]; norm_num [abs_of_neg]
  have e2 : |jsSub (105 : ℚ) 100| = 5 := by
    have := jsSub_intCast 105 100 (by decide)
    norm_num at this
    rw [this]; norm_num
  have e3 : |jsSub (150 : ℚ) 100| = 50 := by
    have := jsSub_intCast 150 100 (by decide)
    norm_num at this
    rw [this]; norm_num
  have e4 : |jsSub (80 : ℚ) 100| = 20 := by
    have := jsSub_intCast 80 100 (by decide)
    norm_num at this
    rw [this]; norm_num [abs_of_neg]
  have e5 : |jsSub (110 : ℚ) 100| = 10 := by
    have := jsSub_intCast 110 100 (by decide)
    norm_num at this
    rw [this]; norm_num
  simp only [selectLevels, MAX_LEVELS, List.map_cons, List.map_nil, e1, e2, e3, e4, e5,
    List.insertionSort, List.orderedInsert]
  norm_num [Level.le, List.orderedInsert]

/-- The selection at `p = 100` among four times the double nearest 199.9 and the double
nearest 0.1: the five computed distances are equal, and the order received is kept. -/
theorem selectLevels_rounding :
    (selectLevels 100 [d199_9, d199_9, d199_9, d199_9, d0_1]).map (·.price) =
      [d199_9, d199_9, d199_9, d199_9] := by
  have e1 : |jsSub d199_9 100| = 3514918771674317 / 35184372088832 := by
    rw [jsSub_d199_9]; norm_num
  have e2 : |jsSub d0_1 100| = 3514918771674317 / 35184372088832 := by
    rw [jsSub_d0_1]; norm_num
  simp only [selectLevels, MAX_LEVELS, List.map_cons, List.map_nil, e1, e2,
    List.insertionSort, List.orderedInsert]
  simp [Level.le, List.orderedInsert]

/-- C12, as stated, fails: with current price 100 and the returned prices 199.9 (four
times) and 0.1, as doubles, both subtractions give the same double, so the sort keeps the
order received; `applyAutoSupportResistance` labels the four prices 199.9 and drops 0.1,
which is strictly nearer to 100. -/
theorem C12_counterexample :
    ((applyAutoSupportResistance overlayState thirtyBars
        (.body true { error := none,
                      levels := some [d199_9, d199_9, d199_9, d199_9, d0_1],
                      pivot_circles := none })).layout.bind fun layout =>
        layout.annotations.map fun labels => labels.map (·.y)) =
        some [d199_9, d199_9, d199_9, d199_9] ∧
      keptPrices (.num 100) [d199_9, d199_9, d199_9, d199_9, d0_1] =
        [d199_9, d199_9, d199_9, d199_9] ∧
      |d0_1 - 100| < |d199_9 - 100| := by
  refine ⟨?_, ?_, ?_⟩
  · rw [applyAutoSupportResistance_levels overlayState thirtyBars "chart"
      { title := "AAPL - 5M", rangebreaks := [], showlegend := false,
        shapes := some [autoLine, userLine], annotations := some [] }
      (List.replicate 30 1700000000000) 100
      { error := none, levels := some [d199_9, d199_9, d199_9, d199_9, d0_1],
        pivot_circles := none }
      [d199_9, d199_9, d199_9, d199_9, d0_1] rfl rfl rfl (by decide) (by decide) rfl rfl
      (by simp)]
    simp [selectLevels_rounding, levelLabelsFrom, levelLabel, userAnnotations]
  · simp only [keptPrices, selectLevels_rounding]
  · norm_num [d0_1, d199_9, abs_lt, abs_of_neg, abs_of_pos]

/-- C12, amended: for every current price `p` and every list of returned prices, given as
doubles, the kept levels number `min 4 n`, are a sub-multiset of the returned prices, are
in non-decreasing order of the computed distance `Math.abs(price - p)` (the double
nearest the exact difference), and every price that is not kept has a computed distance
at least that of every kept one. Where the subtractions are exact, as they are for
integers whose difference is below `2 ^ 53`, this is the order of `|price - p|` itself. A
kept price is labelled resistance (`R`) iff it is above `p` and support (`S`) iff it is at
or below `p`. On a rendered chart of at least thirty bars whose latest close is `p`,
`applyAutoSupportResistance` with a successful non-empty answer sets the automatic lines
and labels to those of the kept levels, in the order of the selection. With `p = 100`
and `[95, 105, 150, 80, 110]` it labels 95, 105, 110 and 80 and drops 150. -/
theorem C12_level_selection (p : ℚ) (prices : List ℚ) :
    (selectLevels p prices).length = min 4 prices.length ∧
      ((selectLevels p prices).map (·.price)).Subperm prices ∧
      (((selectLevels p prices).map fun lv => |jsSub lv.price p|).Sorted (· ≤ ·) ∧
        ∃ dropped : List ℚ,
          prices.Perm ((selectLevels p prices).map (·.price) ++ dropped) ∧
          ∀ q ∈ dropped, ∀ lv ∈ selectLevels p prices,
            |jsSub lv.price p| ≤ |jsSub q p|) ∧
      ((∀ q ∈ prices, jsSub q p = q - p) →
        ((selectLevels p prices).map fun lv => |lv.price - p|).Sorted (· ≤ ·) ∧
        ∃ dropped : List ℚ,
          prices.Perm ((selectLevels p prices).map (·.price) ++ dropped) ∧
          ∀ q ∈ dropped, ∀ lv ∈ selectLevels p prices, |lv.price - p| ≤ |q - p|) ∧
      (∀ a b : ℤ, (a - b).natAbs < 2 ^ 53 → jsSub (a : ℚ) (b : ℚ) = (a : ℚ) - (b : ℚ)) ∧
      (∀ (idx : Nat) (price : ℚ),
        ((levelLabel (.num p) idx price).typeLabel = "R" ↔ price > p) ∧
        ((levelLabel (.num p) idx price).typeLabel = "S" ↔ price ≤ p)) ∧
      (∀ (st : ChartState) (displayData : DisplayData) (el : String) (layout : Layout)
        (ts : List Int) (payload : SrPayload),
        st.el = some el → st.layout = some layout → displayData.t = some ts →
        30 ≤ ts.length → displayData.c.getLast? = some (.num p) →
        payload.hasError = false → payload.levels = some prices → prices ≠ [] →
        applyAutoSupportResistance st displayData (.body true payload) =
          { st with layout := some { layout with
              shapes := some (userShapes layout.shapes ++
                (((selectLevels p prices).map (·.price)).map
                  (levelShape (.num p) ts.head? ts.getLast?) ++ pivotShapes payload)),
              annotations := some (userAnnotations layout.annotations ++
                levelLabelsFrom (.num p) 0 ((selectLevels p prices).map (·.price))) } }) ∧
      (selectLevels 100 [95, 105, 150, 80, 110]).map (·.price) = [95, 105, 110, 80] ∧
      ((applyAutoSupportResistance overlayState thirtyBars
        (.body true { error := none, levels := some [95, 105, 150, 80, 110],
                      pivot_circles := none })).layout.bind (·.annotations)) =
        some [{ y := 95, typeLabel := "S", rank := 1, color := "#007bff",
                _generated_by := some "auto_sr" },
              { y := 105, typeLabel := "R", rank := 2, color := "#fd7e14",
                _generated_by := some "auto_sr" },
              { y := 110, typeLabel := "R", rank := 3, color := "#fd7e14",
                _generated_by := some "auto_sr" },
              { y := 80, typeLabel := "S", rank := 4, color := "#007bff",
                _generated_by := some "auto_sr" }] := by
  refine ⟨?_, ?_, ?_, ?_, ?_, ?_, ?_, selectLevels_example, ?_⟩
  · simp [selectLevels, MAX_LEVELS, List.length_insertionSort]
  · unfold selectLevels
    exact ((List.take_sublist _ _).map _).subperm.trans (sortedLevels_prices p prices).subperm
  · exact selectLevels_order p prices (fun q => |jsSub q p|) (fun _ _ => rfl)
  · intro hexact
    exact selectLevels_order p prices (fun q => |q - p|) (fun q hq => by rw [hexact q hq])
  · exact jsSub_intCast
  · intro idx price
    by_cases h : price > p
    · simp [levelLabel, isResistance, h, not_le.mpr h]
    · simp [levelLabel, isResistance, h, not_lt.mp h]
  · intro st displayData el layout ts payload hel hlay ht h30 hlast herr hlev hne
    exact applyAutoSupportResistance_levels st displayData el layout ts p payload prices hel
      hlay ht h30 hlast herr hlev hne
  · rw [applyAutoSupportResistance_levels overlayState thirtyBars "chart"
      { title := "AAPL - 5M", rangebreaks := [], showlegend := false,
        shapes := some [autoLine, userLine], annotations := some [] }
      (List.replicate 30 1700000000000) 100
      { error := none, levels := some [95, 105, 150, 80, 110], pivot_circles := none }
      [95, 105, 150, 80, 110] rfl rfl rfl (by decide) (by decide) rfl rfl (by simp)]
    simp only [selectLevels_example, Option.bind_some, userAnnotations, Option.getD_some,
      List.filter_nil, List.nil_append, levelLabelsFrom, levelLabel, isResistance]
    norm_num

/-- C13, as stated, fails: on a rendered chart of thirty bars whose layout holds an
automatic line and a line of the user, a detector answer with a non-success status, or
with an `error` field, leaves both lines in `layout.shapes`; removing the tagged entries
would leave the line of the user alone. -/
theorem C13_counterexample :
    ((applyAutoSupportResistance overlayState thirtyBars
        (.body false { error := none, levels := none, pivot_circles := none })).layout.bind
        (·.shapes)) = some [autoLine, userLine] ∧
      ((applyAutoSupportResistance overlayState thirtyBars
        (.body true { error := some "no data", levels := none,
                      pivot_circles := none })).layout.bind
        (·.shapes)) = some [autoLine, userLine] ∧
      userShapes (some [autoLine, userLine]) = [userLine] := by
  refine ⟨?_, ?_, ?_⟩ <;> decide

/-- C13, amended: on a rendered chart (`el` and `layout` set) with at least thirty
display bars, a successful detector answer with an empty level list sets the shapes and
the annotations of the layout to the prior ones without the entries tagged `auto_sr`,
in order, and changes nothing else; an answer with a non-success status or an `error`
field changes nothing at all. -/
theorem C13_overlay_on_empty_or_error (st : ChartState) (displayData : DisplayData)
    (el : String) (layout : Layout) (ts : List Int) (ok : Bool) (payload : SrPayload)
    (hel : st.el = some el) (hlay : st.layout = some layout)
    (ht : displayData.t = some ts) (h30 : 30 ≤ ts.length) (hc : displayData.c ≠ []) :
    (ok = true → payload.hasError = false → payload.levels.getD [] = [] →
        applyAutoSupportResistance st displayData (.body ok payload) =
          { st with layout := some { layout with
              shapes := some ((layout.shapes.getD []).filter
                fun s => decide (s._generated_by ≠ some "auto_sr")),
              annotations := some ((layout.annotations.getD []).filter
                fun a => decide (a._generated_by ≠ some "auto_sr")) } }) ∧
      ((ok = false ∨ payload.hasError = true) →
        applyAutoSupportResistance st displayData (.body ok payload) = st) := by
  have hlt : ¬ ts.length < 30 := Nat.not_lt.mpr h30
  have hcl : ¬ displayData.c.length = 0 := fun h => hc (List.length_eq_zero.mp h)
  constructor
  · intro hok herr hlev
    simp [applyAutoSupportResistance, ht, hlt, hcl, hok, herr, hlev, hel, hlay, userShapes,
      userAnnotations]
  · intro herr
    rcases herr with h | h
    · simp [applyAutoSupportResistance, ht, hlt, hcl, h]
    · simp [applyAutoSupportResistance, ht, hlt, hcl, h]

/-- C13 applied to the chart of thirty bars with one automatic line and one line of
the user, and a successful answer without levels: the line of the user alone is left. -/
theorem C13_overlay_on_empty_or_error_witness :
    applyAutoSupportResistance overlayState thirtyBars
        (.body true { error := none, levels := some [], pivot_circles := none }) =
      { overlayState with
        layout := some { title := "AAPL - 5M", rangebreaks := [], showlegend := false,
                         shapes := some ((([autoLine, userLine] : List Shape)).filter
                           fun s => decide (s._generated_by ≠ some "auto_sr")),
                         annotations := some ((([] : List Annotation)).filter
                           fun a => decide (a._generated_by ≠ some "auto_sr")) } } :=
  (C13_overlay_on_empty_or_error overlayState thirtyBars "chart"
    { title := "AAPL - 5M", rangebreaks := [], showlegend := false,
      shapes := some [autoLine, userLine], annotations := some [] }
    (List.replicate 30 1700000000000) true
    { error := none, levels := some [], pivot_circles := none }
    rfl rfl rfl (by decide) (by decide)).1 rfl rfl rfl

end EnhancedChart
